import Mathlib

/-!
Shallow embedding of the Inventory Search & Replenishment Analytics Engine of
the mini-mart-inventory repository (src/report_and_sreach/report.py,
src/report_and_sreach/sreach.py, with the data model of
src/inventory/product.py and src/sales/transaction.py), together with proofs
settling the frozen claims about it.

Modelling conventions:
- Python ints are `Int`/`Nat` (`Nat` where the source validates non-negativity),
  money and time quantities are `Rat` (the source uses `Decimal` for money and
  `datetime` for time; timestamps are modelled as rational time points measured
  in days, so Python's `timedelta(days=d)` is rational subtraction and
  `timedelta.days` is `Int.floor`).
- Python dicts used as accumulators (`defaultdict`, `Counter`) are association
  lists in key insertion order, which is exactly Python's dict iteration order.
- Python's `sorted` is a stable sort; it is modelled by a stable insertion
  sort (`stableSort`), which computes the same list as any stable sort.
- Python's `round(x, 2)` (round half to even) is `round2`; `int(x)` on a float
  (truncation towards zero) is `pyTrunc`.
-/

namespace MiniMart

/-- Association-list lookup (Python `dict.get`), first binding wins; the
embedded accumulators never hold duplicate keys. -/
def alGet {α : Type} : List (String × α) → String → Option α
  | [], _ => none
  | (k, v) :: rest, key => if k = key then some v else alGet rest key

/-- `totals[pid] += q` on a `defaultdict` with additive default `z`:
updates the binding in place, or appends a fresh binding `(key, z + q)`
at the end (Python dicts keep insertion order). -/
def alAdd {α : Type} [Add α] (z : α) : List (String × α) → String → α → List (String × α)
  | [], key, q => [(key, z + q)]
  | (k, v) :: rest, key, q =>
      if k = key then (k, v + q) :: rest else (k, v) :: alAdd z rest key q

/-- Stable insertion for `stableSort`: `lt y x` means `y` must stay strictly
before `x`; `x` is placed before the first element not strictly before it, so
ties keep their original relative order, as Python's `sorted` guarantees. -/
def stableInsert {α : Type} (lt : α → α → Bool) (x : α) : List α → List α
  | [] => [x]
  | y :: ys => if lt y x then y :: stableInsert lt x ys else x :: y :: ys

/-- Stable sort modelling Python's `sorted` with strict-before test `lt`. -/
def stableSort {α : Type} (lt : α → α → Bool) (l : List α) : List α :=
  l.foldr (stableInsert lt) []

/-- Python slice index resolution for `l[i]`-style bounds: negative indices
count from the end, then the index is clamped to `[0, len]`. -/
def pyIndex (len : Nat) (i : Int) : Nat :=
  if i < 0 then (max 0 ((len : Int) + i)).toNat else min i.toNat len

/-- Python list slice `l[start:stop]`. -/
def pySlice {α : Type} (start stop : Int) (l : List α) : List α :=
  (l.take (pyIndex l.length stop)).drop (pyIndex l.length start)

/-- Python `int(x)` on a float value: truncation towards zero. -/
def pyTrunc (x : ℚ) : ℤ := if 0 ≤ x then ⌊x⌋ else ⌈x⌉

/-- Python `str.strip()` (ASCII whitespace, which is all the repository's
data uses), written on the character list so that it evaluates by kernel
reduction. -/
def strTrim (s : String) : String :=
  String.mk (((s.data.dropWhile Char.isWhitespace).reverse.dropWhile
    Char.isWhitespace).reverse)

/-- Python `str.upper()` (ASCII case mapping). -/
def strUpper (s : String) : String := String.mk (s.data.map Char.toUpper)

/-- Python `str.lower()` (ASCII case mapping). -/
def strLower (s : String) : String := String.mk (s.data.map Char.toLower)

/-- Python `str.startswith(pre)`. -/
def strStartsWith (s pre : String) : Bool := pre.data.isPrefixOf s.data

/-- The word splitter of Python's argumentless `str.split()`: splits on
whitespace runs and drops empty fragments. -/
def wordsAux : List Char → List Char → List (List Char)
  | [], acc => if acc = [] then [] else [acc.reverse]
  | c :: rest, acc =>
      if c.isWhitespace then
        (if acc = [] then wordsAux rest [] else acc.reverse :: wordsAux rest [])
      else wordsAux rest (c :: acc)

/-- `" ".join(words)`. -/
def joinWords : List (List Char) → List Char
  | [] => []
  | [w] => w
  | w :: ws => w ++ ' ' :: joinWords ws

/-- Round half to even to the nearest integer (Python's `round` tie rule). -/
def roundHalfEven (x : ℚ) : ℤ :=
  let f := ⌊x⌋
  let r := x - f
  if r < 1/2 then f
  else if 1/2 < r then f + 1
  else if f % 2 = 0 then f else f + 1

/-- Python `round(x, 2)`. -/
def round2 (x : ℚ) : ℚ := (roundHalfEven (x * 100) : ℚ) / 100

-- ==============================
-- Data model (src/inventory/product.py, src/sales/transaction.py)
-- ==============================

/-- ProductRecord after `Product.__post_init__` validation: `product_id`
non-empty, `stock_quantity ≥ 0` and `min_threshold ≥ 0` (hence `Nat`),
prices are `Decimal` values (modelled as `Rat`). -/
structure Product where
  product_id : String
  name : String
  category : String
  cost_price : ℚ
  sell_price : ℚ
  stock_quantity : ℕ
  min_threshold : ℕ
  unit : String
  deriving DecidableEq, Repr

/-- TransactionRecord after `Transaction.__post_init__` validation:
`trans_type` is upper-cased and checked to be IMPORT or EXPORT, `quantity`
is an int checked `> 0` (the guards are re-proved as hypotheses where a
claim needs them), `date` is a timezone-aware datetime, modelled as a
rational time point measured in days. -/
structure Transaction where
  transaction_id : String
  product_id : String
  trans_type : String
  quantity : ℤ
  date : ℚ
  note : String
  deriving DecidableEq, Repr

-- ==============================
-- Demand estimator: compute_sale_rates (report.py lines 47-86)
-- ==============================

/-- A transaction as seen by `compute_sale_rates` through `safe_get`: a loose
mapping with a `type` entry (absent means the default "OUT"), a `product_id`
string, a `date` that may fail to parse (`none` models both a missing date and
`parse_iso_datetime` returning no value), and a float `quantity`. -/
structure TxDict where
  type_present : Option String
  product_id : String
  date : Option ℚ
  quantity : ℚ
  deriving DecidableEq, Repr

/-- `str(safe_get(t, "type", "OUT")).upper()`. -/
def txType (t : TxDict) : String := strUpper (t.type_present.getD "OUT")

/-- Normalisation of the `product_ids` argument (list mode):
`set(product_ids) if product_ids else None` maps an absent or empty
collection to no filter at all. -/
def normFilter (ids : Option (List String)) : Option (List String) :=
  match ids with
  | none => none
  | some [] => none
  | some l => some l

/-- The loop-body guard of `compute_sale_rates`: the transaction is counted
iff its type (upper-cased, defaulting to "OUT") is OUT or EXPORT, its stripped
product id is non-empty and passes the filter, its date parses, and the date
is `≥ now - lookback_days`.  Note the source checks only `dt >= start`:
there is no upper bound at `now`. -/
def srCounts (pidSet : Option (List String)) (now : ℚ) (lookback_days : ℤ) (t : TxDict) : Bool :=
  (txType t = "OUT" || txType t = "EXPORT") &&
  (strTrim t.product_id ≠ "") &&
  (match pidSet with
   | none => true
   | some l => strTrim t.product_id ∈ l) &&
  (match t.date with
   | none => false
   | some dt => now - (lookback_days : ℚ) ≤ dt)

/-- The `totals` defaultdict after the loop of `compute_sale_rates`. -/
def srTotals (transactions : List TxDict) (pidSet : Option (List String))
    (now : ℚ) (lookback_days : ℤ) : List (String × ℚ) :=
  transactions.foldl
    (fun acc t =>
      if srCounts pidSet now lookback_days t
      then alAdd (0 : ℚ) acc (strTrim t.product_id) t.quantity
      else acc)
    []

/-- `compute_sale_rates` in dict mode (`product_ids` absent or a list):
`rates = {pid: round(total / max(1.0, lookback_days), 2) for ...}`. -/
def computeSaleRates (transactions : List TxDict) (product_ids : Option (List String))
    (now : ℚ) (lookback_days : ℤ) : List (String × ℚ) :=
  (srTotals transactions (normFilter product_ids) now lookback_days).map
    (fun kv => (kv.1, round2 (kv.2 / max 1 (lookback_days : ℚ))))

/-- The claim C1 reading of the demand estimator, written from the claim,
for comparison with `computeSaleRates`: a product's transaction qualifies
iff it is an EXPORT dated within the closed window `[now - d, now]`; the
rate for a product id is the sum of its qualifying quantities divided by
`d`, and ids with no qualifying transaction are absent. -/
def claimQualifies (pidSet : Option (List String)) (now : ℚ) (d : ℤ) (pid : String)
    (t : TxDict) : Bool :=
  (txType t = "EXPORT") &&
  (strTrim t.product_id = pid) && (pid ≠ "") &&
  (match pidSet with
   | none => true
   | some l => pid ∈ l) &&
  (match t.date with
   | none => false
   | some dt => now - (d : ℚ) ≤ dt && dt ≤ now)

/-- Claim C1's asserted rate for one product id. -/
def claimRate (transactions : List TxDict) (product_ids : Option (List String))
    (now : ℚ) (d : ℤ) (pid : String) : Option ℚ :=
  let qual := transactions.filter (claimQualifies (normFilter product_ids) now d pid)
  if qual = [] then none
  else some (round2 ((qual.map TxDict.quantity).sum / (d : ℚ)))

/-- The amended C1 reading: same as the claim except that the window has no
upper bound (`dt ≥ now - d`, so transactions dated after `now` are counted)
and the divisor is `max 1 d`. -/
def amendedQualifies (pidSet : Option (List String)) (now : ℚ) (d : ℤ) (pid : String)
    (t : TxDict) : Bool :=
  (txType t = "EXPORT") &&
  (strTrim t.product_id = pid) && (pid ≠ "") &&
  (match pidSet with
   | none => true
   | some l => pid ∈ l) &&
  (match t.date with
   | none => false
   | some dt => now - (d : ℚ) ≤ dt)

/-- The amended C1 rate for one product id. -/
def amendedRate (transactions : List TxDict) (product_ids : Option (List String))
    (now : ℚ) (d : ℤ) (pid : String) : Option ℚ :=
  let qual := transactions.filter (amendedQualifies (normFilter product_ids) now d pid)
  if qual = [] then none
  else some (round2 ((qual.map TxDict.quantity).sum / max 1 (d : ℚ)))

-- ==============================
-- Financial aggregator: compute_financial_summary (report.py lines 390-599)
-- ==============================

/-- A transaction date as seen by the `(month, year)` period filter of
`compute_financial_summary` (`dt.month`, `dt.year` of the parsed datetime);
`none` models a missing or unparseable date. -/
structure PDate where
  month : ℤ
  year : ℤ
  deriving DecidableEq, Repr

/-- A transaction as read by `compute_financial_summary` through `getattr`:
only `product_id`, `trans_type`, `quantity` and `date` are consulted. -/
structure FTx where
  product_id : String
  trans_type : String
  quantity : ℤ
  date : Option PDate
  deriving DecidableEq, Repr

/-- `products = {p.product_id: p for p in product_mgr.list_products()}` —
`ProductManager` keeps product ids unique, so first match models the dict. -/
def findProduct (products : List Product) (pid : String) : Option Product :=
  products.find? (fun p => p.product_id = pid)

/-- Sell price used for a transaction's product: catalog price, or 0 for an
unknown product. -/
def sellPriceOf (products : List Product) (pid : String) : ℚ :=
  match findProduct products pid with
  | some p => p.sell_price
  | none => 0

/-- Cost price used for a transaction's product: catalog price, or 0 for an
unknown product. -/
def costPriceOf (products : List Product) (pid : String) : ℚ :=
  match findProduct products pid with
  | some p => p.cost_price
  | none => 0

/-- The outer period guard: the transaction is skipped iff both month and
year were supplied and `_in_period` rejects its date (a missing date is
rejected when a period is given). -/
def inPeriod (month year : Option ℤ) (d : Option PDate) : Bool :=
  match month, year with
  | some m, some y =>
      match d with
      | none => false
      | some dt => dt.month = m && dt.year = y
  | _, _ => true

/-- The per-transaction guard of `compute_financial_summary`: in the
period, non-empty stripped product id, positive quantity. -/
def fsCounted (month year : Option ℤ) (t : FTx) : Bool :=
  inPeriod month year t.date && (strTrim t.product_id ≠ "") && (0 < t.quantity)

/-- State of the accumulation loop of `compute_financial_summary`. -/
structure FSAcc where
  revenue : ℚ
  cost : ℚ
  sold : List (String × ℤ)
  deriving DecidableEq, Repr

/-- One iteration of the transaction loop of `compute_financial_summary`. -/
def fsStep (products : List Product) (month year : Option ℤ) (acc : FSAcc) (t : FTx) : FSAcc :=
  if fsCounted month year t then
    let pid := strTrim t.product_id
    let ttype := strUpper t.trans_type
    if ttype = "EXPORT" || ttype = "OUT" then
      { revenue := acc.revenue + sellPriceOf products pid * t.quantity
        cost := acc.cost + costPriceOf products pid * t.quantity
        sold := alAdd (0 : ℤ) acc.sold pid t.quantity }
    else if ttype = "IMPORT" then
      { acc with cost := acc.cost + costPriceOf products pid * t.quantity }
    else acc
  else acc

/-- Revenue, cost and the `qty_by_product` accumulator after the loop. -/
def fsAccumulate (products : List Product) (txs : List FTx)
    (month year : Option ℤ) : FSAcc :=
  txs.foldl (fsStep products month year) { revenue := 0, cost := 0, sold := [] }

/-- One entry of the `top_sellers` / `least_purchased` lists
(`make_item_list` body). -/
structure SellerEntry where
  product_id : String
  name : String
  category : String
  quantity_sold : ℤ
  revenue : ℚ
  cost : ℚ
  profit : ℚ
  deriving DecidableEq, Repr

/-- `make_item_list` on one `(pid, qty)` pair. -/
def mkSellerEntry (products : List Product) (it : String × ℤ) : SellerEntry :=
  match findProduct products it.1 with
  | some p =>
      { product_id := it.1
        name := p.name
        category := p.category
        quantity_sold := it.2
        revenue := p.sell_price * it.2
        cost := p.cost_price * it.2
        profit := p.sell_price * it.2 - p.cost_price * it.2 }
  | none =>
      { product_id := it.1
        name := ""
        category := ""
        quantity_sold := it.2
        revenue := 0
        cost := 0
        profit := 0 }

/-- `sorted(items, key=lambda x: x[1], reverse=True)`: stable, descending
by sold quantity. -/
def sortSoldDesc (items : List (String × ℤ)) : List (String × ℤ) :=
  stableSort (fun y x => x.2 < y.2) items

/-- `sorted(items, key=lambda x: x[1])`: stable, ascending by sold
quantity. -/
def sortSoldAsc (items : List (String × ℤ)) : List (String × ℤ) :=
  stableSort (fun y x => y.2 < x.2) items

/-- The fields of the summary dict that the claims are about (`by_category`,
the currency tag and the CSV export are not consulted by any claim). -/
structure FinancialSummary where
  total_revenue : ℚ
  total_cost : ℚ
  total_profit : ℚ
  top_sellers : List SellerEntry
  least_purchased : List SellerEntry
  product_sales : List (String × ℤ)
  deriving DecidableEq, Repr

/-- `compute_financial_summary` (the pure computation; the optional CSV
export writes the same data and is out of scope of the claims). -/
def computeFinancialSummary (products : List Product) (txs : List FTx)
    (top_k : ℕ) (include_zero_sales : Bool) (month year : Option ℤ) : FinancialSummary :=
  let acc := fsAccumulate products txs month year
  let items := acc.sold
  let itemsDesc := sortSoldDesc items
  let itemsAsc := sortSoldAsc items
  { total_revenue := acc.revenue
    total_cost := acc.cost
    total_profit := acc.revenue - acc.cost
    top_sellers := (itemsDesc.take top_k).map (mkSellerEntry products)
    least_purchased :=
      ((if include_zero_sales then itemsAsc else itemsAsc.filter (fun it => 0 < it.2)).take
        top_k).map (mkSellerEntry products)
    product_sales := items }

/-- Lexicographic string comparison on the character lists (the order of
Python's `<` on strings, and of Lean's `String.instLT`), written so that it
evaluates by kernel reduction. -/
def strLt (a b : String) : Bool := decide (a.data < b.data)

/-- Claim C3's reading of the top-sellers order, written from the claim:
descending sold quantity, ties broken by ascending product identifier. -/
def claimSortDesc (items : List (String × ℤ)) : List (String × ℤ) :=
  stableSort (fun y x => y.2 > x.2 || (y.2 = x.2 && strLt y.1 x.1)) items

/-- Claim C3's asserted top-sellers list. -/
def claimTopSellers (products : List Product) (txs : List FTx)
    (top_k : ℕ) (month year : Option ℤ) : List SellerEntry :=
  ((claimSortDesc (fsAccumulate products txs month year).sold).take top_k).map
    (mkSellerEntry products)

/-- The amended C3 order: descending sold quantity, ties broken by the
position at which the product first entered the sold-quantity accumulator
(stable order), formalised by sorting the position-annotated list under the
strict lexicographic key (quantity descending, position ascending). -/
def amendedSortDesc (items : List (String × ℤ)) : List (String × ℤ) :=
  (stableSort
      (fun y x => y.2.2 > x.2.2 || (y.2.2 = x.2.2 && y.1 < x.1))
      items.enum).map Prod.snd

/-- The amended C3 top-sellers list. -/
def amendedTopSellers (products : List Product) (txs : List FTx)
    (top_k : ℕ) (month year : Option ℤ) : List SellerEntry :=
  ((amendedSortDesc (fsAccumulate products txs month year).sold).take top_k).map
    (mkSellerEntry products)

-- ==============================
-- Stock alert generator: generate_low_stock_alerts (report.py lines 93-165)
-- ==============================

/-- One alert item as built in the product loop of
`generate_low_stock_alerts`; the three forecast entries are optional dict
keys, hence `Option`. -/
structure AlertItem where
  product_id : String
  name : String
  category : String
  stock_quantity : ℕ
  min_threshold : ℕ
  unit : String
  needed : ℤ
  daily_sale_rate : Option ℚ
  days_until_stockout : Option ℚ
  predicted_out_soon : Option Bool
  deriving DecidableEq, Repr

/-- `PREDICT_SOON_DAYS` (report.py line 29). -/
def PREDICT_SOON_DAYS : ℚ := 7

/-- The alert item built for one product: `needed` from the threshold gap
plus the buffer, then the forecast fields.  `rate = sale_rates.get(pid)` and
`if rate:` treat a missing rate and a rate of 0 alike, so an absent binding
is modelled by `none` and tested together with `0`; `days_left` is `None`
unless `rate > 0`, and `if days_left:` also drops the value `0.0`. -/
def mkAlertItem (sale_rates : List (String × ℚ)) (reorder_buffer : ℤ) (p : Product) : AlertItem :=
  let qty : ℤ := p.stock_quantity
  let minThr : ℤ := p.min_threshold
  let needed : ℤ := if qty < minThr then max 0 ((minThr - qty) + max 0 reorder_buffer) else 0
  let rate := alGet sale_rates p.product_id
  let base : AlertItem :=
    { product_id := p.product_id
      name := p.name
      category := p.category
      stock_quantity := p.stock_quantity
      min_threshold := p.min_threshold
      unit := p.unit
      needed := needed
      daily_sale_rate := none
      days_until_stockout := none
      predicted_out_soon := none }
  match rate with
  | none => base
  | some r =>
      if r = 0 then base
      else
        let withRate := { base with daily_sale_rate := some r }
        if 0 < r then
          let daysLeft : ℚ := (p.stock_quantity : ℚ) / r
          if daysLeft = 0 then withRate
          else
            { withRate with
                days_until_stockout := some (round2 daysLeft)
                predicted_out_soon := some (decide (daysLeft ≤ PREDICT_SOON_DAYS)) }
        else withRate

/-- The classification outcome of `generate_low_stock_alerts` (the
`by_category` tally is not consulted by any claim). -/
structure Alerts where
  out_of_stock : List AlertItem
  low_stock : List AlertItem
  total_needed : ℤ
  deriving DecidableEq, Repr

/-- One iteration of the product loop of `generate_low_stock_alerts`. -/
def alertStep (sale_rates : List (String × ℚ)) (reorder_buffer : ℤ)
    (include_out include_low : Bool) (acc : Alerts) (p : Product) : Alerts :=
  let item := mkAlertItem sale_rates reorder_buffer p
  if p.stock_quantity = 0 && include_out then
    { acc with
        out_of_stock := acc.out_of_stock ++ [item]
        total_needed := acc.total_needed + item.needed }
  else if 0 < p.stock_quantity && p.stock_quantity ≤ p.min_threshold && include_low then
    { acc with
        low_stock := acc.low_stock ++ [item]
        total_needed := acc.total_needed + item.needed }
  else acc

/-- `generate_low_stock_alerts`, given the sale-rate map it computes via
`compute_sale_rates` (the map is passed in explicitly here; the alert logic
only reads it through `sale_rates.get`). -/
def generateLowStockAlerts (products : List Product) (sale_rates : List (String × ℚ))
    (include_out include_low : Bool) (reorder_buffer : ℤ) : Alerts :=
  products.foldl (alertStep sale_rates reorder_buffer include_out include_low)
    { out_of_stock := [], low_stock := [], total_needed := 0 }

-- ==============================
-- Search engine (sreach.py)
-- ==============================

/-- `normalize_name` (src/utils/validators.py): trim, lowercase, collapse
internal whitespace (`" ".join(str(name).strip().lower().split())`). -/
def normalizeName (s : String) : String :=
  String.mk (joinWords (wordsAux (strLower s).data []))

/-- The two Unicode transliteration helpers and the fuzzy similarity test
are table-driven (`unidecode`, `unicodedata.normalize("NFKD", ...)`,
`rapidfuzz`/`difflib`); they are modelled as parameters, since no claim
depends on their value.
- `unidec`: `unidecode.unidecode`, applied by `normalize_name(x, ascii_only=True)`
  after the plain normalisation;
- `removeAcc`: `_remove_accents` (NFKD strip of combining marks + lowercase);
- `fuzzyTest kw_norm val_norm kw_plain val_plain`: `SearchEngine._fuzzy_match`
  against the default threshold 70. -/
structure NormOracle where
  unidec : String → String
  removeAcc : String → String
  fuzzyTest : String → String → String → String → Bool

/-- One entry of the in-memory index built by `SearchEngine._build_index`. -/
structure IndexEntry where
  product : Product
  product_id_norm : String
  name_norm : String
  category_norm : String
  product_id_plain : String
  name_plain : String
  category_plain : String
  deriving Repr

/-- `SearchEngine._build_index`. -/
def buildIndex (ora : NormOracle) (products : List Product) : List IndexEntry :=
  products.map (fun p =>
    { product := p
      product_id_norm := normalizeName p.product_id
      name_norm := normalizeName p.name
      category_norm := normalizeName p.category
      product_id_plain := ora.unidec (normalizeName p.product_id)
      name_plain := ora.unidec (normalizeName p.name)
      category_plain := ora.unidec (normalizeName p.category) })

/-- Substring containment on `List Char` (Python's `needle in hay`). -/
def subAux (nd : List Char) : List Char → Bool
  | [] => nd.isEmpty
  | c :: rest => nd.isPrefixOf (c :: rest) || subAux nd rest

/-- Python's `needle in hay` on strings. -/
def strContainsSub (hay needle : String) : Bool := subAux needle.data hay.data

/-- The three match tiers of `search_products`
(`match_type` values "prefix", "substring", "fuzzy"). -/
inductive MatchKind where
  | matchPre
  | matchSub
  | matchFuz
  deriving DecidableEq, Repr

/-- The base score of each tier (300 / 200 / 100 in the source). -/
def tierBase : MatchKind → ℕ
  | .matchPre => 300
  | .matchSub => 200
  | .matchFuz => 100

/-- `entry.get(f + "_norm", "")`. -/
def fieldNorm (e : IndexEntry) (f : String) : String :=
  if f = "product_id" then e.product_id_norm
  else if f = "name" then e.name_norm
  else if f = "category" then e.category_norm
  else ""

/-- `entry.get(f + "_plain", "")`. -/
def fieldPlain (e : IndexEntry) (f : String) : String :=
  if f = "product_id" then e.product_id_plain
  else if f = "name" then e.name_plain
  else if f = "category" then e.category_plain
  else ""

/-- The tier classification of one field of one entry (the
`if/elif/elif/else continue` ladder of the inner loop). -/
def tryField (ora : NormOracle) (kw_norm kw_plain : String) (fuzzy : Bool)
    (e : IndexEntry) (f : String) : Option MatchKind :=
  let nv := fieldNorm e f
  let pv := fieldPlain e f
  if strStartsWith nv kw_norm || strStartsWith pv kw_plain then some .matchPre
  else if strContainsSub nv kw_norm || strContainsSub pv kw_plain then some .matchSub
  else if fuzzy && ora.fuzzyTest kw_norm nv kw_plain pv then some .matchFuz
  else none

/-- `SearchEngine._get_product_popularity`: number of EXPORT transactions
referencing the product (0 when no transaction manager is attached). -/
def popularity (trans_mgr : Option (List Transaction)) (pid : String) : ℕ :=
  match trans_mgr with
  | none => 0
  | some l => (l.filter (fun t => t.product_id = pid && t.trans_type = "EXPORT")).length

/-- One ranked search result (the fields of `p.to_dict()` that the claims
consult, plus the match metadata; `stock_status` is the constant "N/A"
because the `Product` dataclass has no `stock_status` method). -/
structure SResult where
  product_id : String
  name : String
  category : String
  matched_field : String
  match_type : MatchKind
  search_score : ℕ
  deriving DecidableEq, Repr

/-- `allowed = {"product_id", "name", "category"}`. -/
def allowedFields : List String := ["product_id", "name", "category"]

/-- `fields_to_check = [field] if field else list(allowed)` — an empty-string
field restriction is falsy, so it behaves like no restriction.  (Python
enumerates the set `allowed` in an unspecified but fixed order; no claim
depends on the field order.) -/
def fieldsToCheck (field : Option String) : List String :=
  match field with
  | some f => if f ≠ "" then [f] else allowedFields
  | none => allowedFields

/-- The search validation error.  The source raises
`ValueError(f"Field ... Hỗ trợ: ...allowed...")`, whose message names the
offending field and then enumerates the allowed set; the constant text is
modelled in ASCII. -/
def searchFieldError (f : String) : String :=
  "Field " ++ f ++ " khong hop le. Ho tro: product_id, name, category"

/-- The autocomplete validation error: the source raises
`ValueError(f"Field ... khong hop le.")`, naming only the offending field,
without the allowed set. -/
def autocompleteFieldError (f : String) : String :=
  "Field " ++ f ++ " khong hop le."

/-- The category pre-filter (`if category and normalize_name(p.category) !=
normalize_name(category): continue`); an empty category filter is falsy. -/
def catSkip (category : Option String) (p : Product) : Bool :=
  match category with
  | none => false
  | some c => c ≠ "" && normalizeName p.category ≠ normalizeName c

/-- The result the inner field loop produces for one index entry: the first
qualifying field wins (`break`), the tier base plus the capped popularity
boost is its score. -/
def entryResult (ora : NormOracle) (trans_mgr : Option (List Transaction))
    (kw_norm kw_plain : String) (field : Option String) (fuzzy : Bool)
    (e : IndexEntry) : Option SResult :=
  (fieldsToCheck field).findSome? (fun f =>
    (tryField ora kw_norm kw_plain fuzzy e f).map (fun mt =>
      { product_id := e.product.product_id
        name := e.product.name
        category := e.product.category
        matched_field := f
        match_type := mt
        search_score := tierBase mt + min 50 (popularity trans_mgr e.product.product_id) }))

/-- The output dict of `search_products`. -/
structure SearchOut where
  results : List SResult
  total : ℕ
  facets : List (String × ℕ)
  deriving DecidableEq, Repr

/-- `sorted(results, key=lambda r: (-r["search_score"], r["product_id"]))`;
the identifier tie-break is Python's lexicographic string order, `strLt`. -/
def sortResults (l : List SResult) : List SResult :=
  stableSort
    (fun y x =>
      x.search_score < y.search_score ||
      (y.search_score = x.search_score && strLt y.product_id x.product_id))
    l

/-- The main body of `search_products` (index scan, ranking, facet counts,
pagination), reached once the keyword is non-empty and the field restriction
has passed validation. -/
def searchBody (ora : NormOracle) (products : List Product)
    (trans_mgr : Option (List Transaction)) (kw_norm kw_plain : String)
    (field : Option String) (category : Option String) (fuzzy : Bool)
    (page per_page : ℤ) : SearchOut :=
  let results := (buildIndex ora products).filterMap (fun e =>
    if catSkip category e.product then none
    else entryResult ora trans_mgr kw_norm kw_plain field fuzzy e)
  let sorted := sortResults results
  let facets := sorted.foldl (fun acc r => alAdd (0 : ℕ) acc r.category 1) []
  let total := sorted.length
  let paginated := pySlice ((page - 1) * per_page) ((page - 1) * per_page + per_page) sorted
  { results := paginated, total := total, facets := facets }

/-- `SearchEngine.search_products`.  A raised `ValueError` is the `Except`
error channel.  Note the source returns the empty result before validating
the field restriction. -/
def searchProducts (ora : NormOracle) (products : List Product)
    (trans_mgr : Option (List Transaction)) (keyword : String)
    (field : Option String) (category : Option String) (fuzzy : Bool)
    (page per_page : ℤ) : Except String SearchOut :=
  if keyword = "" then .ok { results := [], total := 0, facets := [] }
  else
    let kw_norm := normalizeName keyword
    let kw_plain := ora.removeAcc keyword
    match field with
    | some f =>
        if f ≠ "" && f ∉ allowedFields then .error (searchFieldError f)
        else
          .ok (searchBody ora products trans_mgr kw_norm kw_plain field category fuzzy
                page per_page)
    | none =>
        .ok (searchBody ora products trans_mgr kw_norm kw_plain field category fuzzy
              page per_page)

/-- `getattr(entry["product"], field, "")` for the three allowed fields. -/
def productField (p : Product) (f : String) : String :=
  if f = "product_id" then p.product_id
  else if f = "name" then p.name
  else if f = "category" then p.category
  else ""

/-- The suggestion loop of `autocomplete_products`: append each distinct
matching value, stop as soon as `limit` suggestions are collected (the limit
test runs after every match, even a duplicate one). -/
def acLoop (ora : NormOracle) (prefN : String) (limit : ℕ) :
    List String → List String → List String
  | [], sugg => sugg
  | v :: vs, sugg =>
      if v = "" then acLoop ora prefN limit vs sugg
      else if strStartsWith (strLower (ora.removeAcc v)) prefN then
        let sugg2 := if v ∈ sugg then sugg else sugg ++ [v]
        if limit ≤ sugg2.length then sugg2 else acLoop ora prefN limit vs sugg2
      else acLoop ora prefN limit vs sugg

/-- `SearchEngine.autocomplete_products`.  The empty-prefix early return
precedes the field validation, exactly as in the source; unlike
`search_products`, the field here is a required argument and is not tested
for truthiness, so an empty field name is rejected too. -/
def autocompleteProducts (ora : NormOracle) (products : List Product)
    (pre : String) (field : String) (limit : ℕ) : Except String (List String) :=
  if pre = "" then .ok []
  else if field ∉ allowedFields then .error (autocompleteFieldError field)
  else
    let prefN := strTrim (strLower (ora.removeAcc pre))
    .ok (acLoop ora prefN limit (products.map (fun p => productField p field)) [])

-- ==============================
-- Replenishment advisor: _suggest_order_quantity (sreach.py lines 280-311)
-- ==============================

/-- `min` of a list of time points (Python `min(dates)`; the source only
evaluates it on a non-empty list). -/
def qmin (l : List ℚ) : ℚ :=
  match l with
  | [] => 0
  | x :: xs => xs.foldl min x

/-- `SearchEngine._suggest_order_quantity`.  Timestamps are rational time
points in days, so `(now - min(dates)).days` is `⌊now - min dates⌋`; the
float literal `0.2` is the exact rational `1/5`. -/
def suggestOrderQuantity (p : Product) (trans_mgr : Option (List Transaction))
    (days lead_time_days : ℤ) (now : ℚ) : ℤ :=
  match trans_mgr with
  | none => max 0 ((p.min_threshold : ℤ) - (p.stock_quantity : ℤ))
  | some allTx =>
      let cutoff : ℚ := now - (days : ℚ)
      let txs := allTx.filter (fun t =>
        t.product_id = p.product_id && t.trans_type = "EXPORT" && cutoff ≤ t.date)
      if txs = [] then max 0 ((p.min_threshold : ℤ) - (p.stock_quantity : ℤ))
      else
        let totalSold : ℤ := (txs.map Transaction.quantity).sum
        let dates := txs.map Transaction.date
        let actualDays : ℤ := if dates = [] then 1 else max 1 ⌊now - qmin dates⌋
        let avg : ℚ := (totalSold : ℚ) / (actualDays : ℚ)
        let safety : ℤ := max 1 (pyTrunc (1/5 * avg * (lead_time_days : ℚ)))
        let reorderPoint : ℤ := pyTrunc (avg * (lead_time_days : ℚ) + (safety : ℚ))
        max 0 (reorderPoint - (p.stock_quantity : ℤ))

/-- Claim C6's formula for the sales-history branch, written from the claim:
`safety_stock = max(1, floor(0.2 r L))`, `reorder_point = floor(r L) +
safety_stock`, `suggested = max(0, reorder_point - stock)`, with `r` the
daily sale rate the advisor derives from the qualifying transactions. -/
def claimSuggestFormula (p : Product) (r : ℚ) (lead_time_days : ℤ) : ℤ :=
  let safety : ℤ := max 1 ⌊1/5 * r * (lead_time_days : ℚ)⌋
  let reorderPoint : ℤ := ⌊r * (lead_time_days : ℚ)⌋ + safety
  max 0 (reorderPoint - (p.stock_quantity : ℤ))

/-- The daily sale rate the advisor computes in the sales-history branch:
total quantity sold over the qualifying window divided by the observed span
`max(1, (now - min(dates)).days)`. -/
def advisorRate (p : Product) (allTx : List Transaction) (days : ℤ) (now : ℚ) : ℚ :=
  let cutoff : ℚ := now - (days : ℚ)
  let txs := allTx.filter (fun t =>
    t.product_id = p.product_id && t.trans_type = "EXPORT" && cutoff ≤ t.date)
  let totalSold : ℤ := (txs.map Transaction.quantity).sum
  let dates := txs.map Transaction.date
  let actualDays : ℤ := if dates = [] then 1 else max 1 ⌊now - qmin dates⌋
  (totalSold : ℚ) / (actualDays : ℚ)

-- ==============================
-- Code-side predicates named for the theorems
-- ==============================

/-- `ttype in ("EXPORT", "OUT")` after upper-casing. -/
def fsIsExport (t : FTx) : Bool :=
  strUpper t.trans_type = "EXPORT" || strUpper t.trans_type = "OUT"

/-- `ttype == "IMPORT"` after upper-casing. -/
def fsIsImport (t : FTx) : Bool := strUpper t.trans_type = "IMPORT"

/-- The amended C6 reading of the advisor: threshold fallback when the
ledger is absent or holds no EXPORT for the product dated at or after
`now - days` — the source's history filter (`t.date >= cutoff`,
sreach.py line 295) has NO upper bound at `now`, so a future-dated EXPORT
counts as sales history, unlike the claim's two-sided lookback window
`[now - days, now]` (see `claim_C6_counterexample`) — otherwise the
reorder-point formula at the advisor's daily rate. -/
def claimSuggest (p : Product) (trans_mgr : Option (List Transaction))
    (days lead_time_days : ℤ) (now : ℚ) : ℤ :=
  match trans_mgr with
  | none => max 0 ((p.min_threshold : ℤ) - (p.stock_quantity : ℤ))
  | some allTx =>
      let cutoff : ℚ := now - (days : ℚ)
      let txs := allTx.filter (fun t =>
        t.product_id = p.product_id && t.trans_type = "EXPORT" && cutoff ≤ t.date)
      if txs = [] then max 0 ((p.min_threshold : ℤ) - (p.stock_quantity : ℤ))
      else claimSuggestFormula p (advisorRate p allTx days now) lead_time_days

-- ==============================
-- Concrete inputs used by counterexamples and witnesses
-- ==============================

/-- A transliteration oracle for concrete inputs: ASCII-only data, so
accent stripping is the identity and fuzzy similarity is never consulted. -/
def idOracle : NormOracle :=
  { unidec := fun s => s
    removeAcc := fun s => strLower s
    fuzzyTest := fun _ _ _ _ => false }

/-- Scenario products of claim C2: P1 (sell 15000, cost 10000) and
P2 (sell 3000, cost 2000). -/
def scenP1 : Product :=
  { product_id := "P1", name := "Milk", category := "Drinks", cost_price := 10000,
    sell_price := 15000, stock_quantity := 50, min_threshold := 5, unit := "box" }

/-- Second scenario product of claim C2. -/
def scenP2 : Product :=
  { product_id := "P2", name := "Soap", category := "Household", cost_price := 2000,
    sell_price := 3000, stock_quantity := 100, min_threshold := 10, unit := "piece" }

/-- Scenario catalog of claim C2. -/
def scenProducts : List Product := [scenP1, scenP2]

/-- Scenario transactions of claim C2: EXPORT P1×10 and EXPORT P2×2
(no period filter is supplied, so the dates are irrelevant). -/
def scenTxs : List FTx :=
  [ { product_id := "P1", trans_type := "EXPORT", quantity := 10, date := none },
    { product_id := "P2", trans_type := "EXPORT", quantity := 2, date := none } ]

/-- C1 counterexample transaction: an EXPORT of quantity 60 dated 5 days
after `now` — inside the code's one-sided window, outside the claim's
closed window `[now - 30, now]`. -/
def c1FutureTx : TxDict :=
  { type_present := some "EXPORT", product_id := "A", date := some 5, quantity := 60 }

/-- C3 counterexample catalog: two products with equal prices. -/
def c3Products : List Product :=
  [ { product_id := "A", name := "Alpha", category := "Misc", cost_price := 10,
      sell_price := 10, stock_quantity := 1, min_threshold := 0, unit := "u" },
    { product_id := "B", name := "Beta", category := "Misc", cost_price := 10,
      sell_price := 10, stock_quantity := 1, min_threshold := 0, unit := "u" } ]

/-- C3 counterexample transactions: product B sells 5 units before product A
sells 5 units, so the two accumulator entries tie on quantity and keep the
order B, A under the stable sort. -/
def c3Txs : List FTx :=
  [ { product_id := "B", trans_type := "EXPORT", quantity := 5, date := none },
    { product_id := "A", trans_type := "EXPORT", quantity := 5, date := none } ]

/-- A one-product catalog for the search witnesses. -/
def c4Product : Product :=
  { product_id := "AB", name := "Apple", category := "Fruit", cost_price := 1,
    sell_price := 2, stock_quantity := 3, min_threshold := 1, unit := "u" }

/-- Witness product for the replenishment advisor. -/
def c6Product : Product :=
  { product_id := "P", name := "Water", category := "Drinks", cost_price := 1,
    sell_price := 2, stock_quantity := 2, min_threshold := 5, unit := "bottle" }

/-- Witness transaction ledger for the replenishment advisor: one EXPORT of
quantity 9, dated 3 days before `now = 10`. -/
def c6Txs : List Transaction :=
  [ { transaction_id := "T1", product_id := "P", trans_type := "EXPORT",
      quantity := 9, date := 7, note := "" } ]

/-- C6 counterexample ledger: a single EXPORT of quantity 9 dated 5 days
AFTER `now = 10` — no sales history inside the lookback window
`[now - 30, now]`, yet inside the code's one-sided filter. -/
def c6FutureTxs : List Transaction :=
  [ { transaction_id := "T2", product_id := "P", trans_type := "EXPORT",
      quantity := 9, date := 15, note := "" } ]

/-- Witness product for the alert claims: out of stock, below threshold. -/
def c9Product : Product :=
  { product_id := "Z", name := "Zero", category := "Misc", cost_price := 1,
    sell_price := 2, stock_quantity := 0, min_threshold := 4, unit := "u" }

-- ==============================
-- Association-list and fold lemmas
-- ==============================

theorem alGet_alAdd_self {α : Type} [Add α] (z : α) (l : List (String × α)) (k : String) (q : α) :
    alGet (alAdd z l k q) k = some ((alGet l k).getD z + q) := by
  induction l with
  | nil => simp [alAdd, alGet]
  | cons kv rest ih =>
      by_cases hk : kv.1 = k
      · simp [alAdd, alGet, hk]
      · simp [alAdd, alGet, hk, ih]

theorem alGet_alAdd_other {α : Type} [Add α] (z : α) (l : List (String × α))
    (k k' : String) (q : α) (h : k ≠ k') :
    alGet (alAdd z l k q) k' = alGet l k' := by
  induction l with
  | nil => simp [alAdd, alGet, h]
  | cons kv rest ih =>
      by_cases hk : kv.1 = k
      · subst hk
        simp [alAdd, alGet, h, Ne.symm h]
      · by_cases hk' : kv.1 = k'
        · simp [alAdd, alGet, hk, hk', Ne.symm h]
        · simp [alAdd, alGet, hk, hk', ih]

theorem alGet_alAdd_eq_none {α : Type} [Add α] (z : α) (l : List (String × α))
    (k k' : String) (q : α) :
    alGet (alAdd z l k q) k' = none ↔ alGet l k' = none ∧ k ≠ k' := by
  constructor
  · intro h
    by_cases hk : k = k'
    · subst hk
      rw [alGet_alAdd_self] at h
      exact absurd h (by simp)
    · exact ⟨by rw [alGet_alAdd_other z l k k' q hk] at h; exact h, hk⟩
  · intro ⟨h1, h2⟩
    rw [alGet_alAdd_other z l k k' q h2]
    exact h1

theorem alGet_foldl_add_getD {τ α : Type} [AddCommMonoid α]
    (c : τ → Bool) (key : τ → String) (val : τ → α)
    (txs : List τ) (acc : List (String × α)) (k : String) :
    (alGet (txs.foldl (fun a t => if c t then alAdd 0 a (key t) (val t) else a) acc) k).getD 0
      = (alGet acc k).getD 0
        + ((txs.filter (fun t => c t && key t = k)).map val).sum := by
  induction txs generalizing acc with
  | nil => simp
  | cons t ts ih =>
      simp only [List.foldl_cons, List.filter_cons]
      by_cases hc : c t
      · by_cases hk : key t = k
        · rw [ih]
          simp [hc, hk, alGet_alAdd_self]
          rw [add_assoc]
        · rw [ih]
          simp [hc, hk, alGet_alAdd_other 0 acc (key t) k (val t) hk]
      · rw [ih]
        simp [hc]

theorem alGet_foldl_add_eq_none {τ α : Type} [AddCommMonoid α]
    (c : τ → Bool) (key : τ → String) (val : τ → α)
    (txs : List τ) (acc : List (String × α)) (k : String) :
    alGet (txs.foldl (fun a t => if c t then alAdd 0 a (key t) (val t) else a) acc) k = none
      ↔ alGet acc k = none ∧ (txs.filter (fun t => c t && key t = k)) = [] := by
  induction txs generalizing acc with
  | nil => simp
  | cons t ts ih =>
      simp only [List.foldl_cons, List.filter_cons]
      by_cases hc : c t
      · by_cases hk : key t = k
        · subst hk
          rw [ih, if_pos hc, alGet_alAdd_eq_none]
          simp [hc]
        · rw [ih, if_pos hc, alGet_alAdd_other 0 acc (key t) k (val t) hk]
          simp [hc, hk]
      · rw [ih, if_neg hc]
        simp [hc]

theorem alGet_map_value {α β : Type} (f : α → β) (l : List (String × α)) (k : String) :
    alGet (l.map (fun kv => (kv.1, f kv.2))) k = (alGet l k).map f := by
  induction l with
  | nil => simp [alGet]
  | cons kv rest ih =>
      by_cases hk : kv.1 = k
      · simp [alGet, hk]
      · simp [alGet, hk, ih]

theorem sum_values_alAdd {α : Type} [AddCommMonoid α] (l : List (String × α)) (k : String) (q : α) :
    ((alAdd 0 l k q).map Prod.snd).sum = (l.map Prod.snd).sum + q := by
  induction l with
  | nil => simp [alAdd]
  | cons kv rest ih =>
      by_cases hk : kv.1 = k
      · simp [alAdd, hk, add_assoc, add_comm]
      · simp [alAdd, hk, ih, add_assoc]

theorem sum_values_count_foldl {τ : Type} (key : τ → String)
    (l : List τ) (acc : List (String × ℕ)) :
    ((l.foldl (fun a r => alAdd 0 a (key r) 1) acc).map Prod.snd).sum
      = (acc.map Prod.snd).sum + l.length := by
  induction l generalizing acc with
  | nil => simp
  | cons r rs ih =>
      simp only [List.foldl_cons, List.length_cons]
      rw [ih, sum_values_alAdd]
      ring

theorem foldl_add_eq_sum {τ α : Type} [AddMonoid α] (f : τ → α) (l : List τ) (a : α) :
    l.foldl (fun acc t => acc + f t) a = a + (l.map f).sum := by
  induction l generalizing a with
  | nil => simp
  | cons t ts ih =>
      simp only [List.foldl_cons, List.map_cons, List.sum_cons]
      rw [ih, add_assoc]

-- ==============================
-- Stable-sort lemmas
-- ==============================

theorem mem_stableInsert {α : Type} (lt : α → α → Bool) (a x : α) (l : List α) :
    x ∈ stableInsert lt a l ↔ x = a ∨ x ∈ l := by
  induction l with
  | nil => simp [stableInsert]
  | cons y ys ih =>
      unfold stableInsert
      by_cases h : lt y a
      · rw [if_pos h]
        simp only [List.mem_cons, ih]
        tauto
      · rw [if_neg h]
        simp only [List.mem_cons]

theorem mem_stableSort {α : Type} (lt : α → α → Bool) (x : α) (l : List α) :
    x ∈ stableSort lt l ↔ x ∈ l := by
  induction l with
  | nil => simp [stableSort]
  | cons y ys ih =>
      simp only [stableSort, List.foldr_cons] at *
      rw [mem_stableInsert, ih]
      simp

theorem mem_of_mem_pySlice {α : Type} {x : α} {a b : Int} {l : List α}
    (h : x ∈ pySlice a b l) : x ∈ l := by
  exact List.take_subset _ _ (List.drop_subset _ _ h)

theorem fst_ge_of_mem_enumFrom {α : Type} {p : ℕ × α} :
    ∀ {n : ℕ} {l : List α}, p ∈ List.enumFrom n l → n ≤ p.1 := by
  intro n l
  induction l generalizing n with
  | nil => intro h; simp [List.enumFrom] at h
  | cons x xs ih =>
      intro h
      simp only [List.enumFrom, List.mem_cons] at h
      rcases h with h | h
      · subst h; exact le_refl n
      · exact Nat.le_of_succ_le (ih h)

theorem stableInsert_lex_map (x : String × ℤ) (n : ℕ) (s : List (ℕ × (String × ℤ)))
    (h : ∀ p ∈ s, n < p.1) :
    (stableInsert (fun y z => y.2.2 > z.2.2 || (y.2.2 = z.2.2 && y.1 < z.1)) (n, x) s).map
        Prod.snd
      = stableInsert (fun y z => z.2 < y.2) x (s.map Prod.snd) := by
  induction s with
  | nil => simp [stableInsert]
  | cons q qs ih =>
      have hq : n < q.1 := h q (List.mem_cons_self q qs)
      have hq' : ¬ (q.1 < n) := by omega
      by_cases hgt : x.2 < q.2.2
      · simp only [stableInsert, List.map_cons]
        simp [gt_iff_lt, hgt, ih (fun p hp => h p (List.mem_cons_of_mem q hp))]
      · simp only [stableInsert, List.map_cons]
        simp [gt_iff_lt, hgt, hq']

theorem stableSort_lex_enumFrom (l : List (String × ℤ)) (n : ℕ) :
    (stableSort (fun y z => y.2.2 > z.2.2 || (y.2.2 = z.2.2 && y.1 < z.1))
        (List.enumFrom n l)).map Prod.snd
      = stableSort (fun y z => z.2 < y.2) l := by
  induction l generalizing n with
  | nil => simp [stableSort, List.enumFrom]
  | cons x xs ih =>
      simp only [List.enumFrom, stableSort, List.foldr_cons]
      have hmem : ∀ p ∈ (List.enumFrom (n + 1) xs).foldr
          (stableInsert (fun y z => y.2.2 > z.2.2 || (y.2.2 = z.2.2 && y.1 < z.1))) [],
          n < p.1 := by
        intro p hp
        have : p ∈ List.enumFrom (n + 1) xs := by
          have := (mem_stableSort (fun y z => y.2.2 > z.2.2 || (y.2.2 = z.2.2 && y.1 < z.1))
            p (List.enumFrom (n + 1) xs)).mp
          exact this hp
        have := fst_ge_of_mem_enumFrom this
        omega
      rw [stableInsert_lex_map x n _ hmem]
      have := ih (n + 1)
      simp only [stableSort] at this
      rw [this]

/-- The stability bridge for claim C3: a stable descending sort by quantity
computes the same list as the strict sort under the lexicographic key
(quantity descending, first-appearance position ascending). -/
theorem amendedSortDesc_eq_sortSoldDesc (items : List (String × ℤ)) :
    amendedSortDesc items = sortSoldDesc items := by
  unfold amendedSortDesc sortSoldDesc
  have := stableSort_lex_enumFrom items 0
  simpa [List.enum] using this

-- ==============================
-- Stock-alert lemmas
-- ==============================

theorem mkAlertItem_needed (rates : List (String × ℚ)) (b : ℤ) (p : Product) :
    (mkAlertItem rates b p).needed
      = if (p.stock_quantity : ℤ) < (p.min_threshold : ℤ)
        then max 0 (((p.min_threshold : ℤ) - (p.stock_quantity : ℤ)) + max 0 b) else 0 := by
  unfold mkAlertItem
  cases h : alGet rates p.product_id with
  | none => simp
  | some r =>
      by_cases hr : r = 0
      · simp [hr]
      · by_cases hrpos : 0 < r
        · by_cases hd : ((p.stock_quantity : ℚ) / r) = 0
          · simp [hr, hrpos, hd]
          · simp [hr, hrpos, hd]
        · simp [hr, hrpos]

theorem mkAlertItem_stock (rates : List (String × ℚ)) (b : ℤ) (p : Product) :
    (mkAlertItem rates b p).stock_quantity = p.stock_quantity := by
  unfold mkAlertItem
  cases h : alGet rates p.product_id with
  | none => simp
  | some r =>
      by_cases hr : r = 0
      · simp [hr]
      · by_cases hrpos : 0 < r
        · by_cases hd : ((p.stock_quantity : ℚ) / r) = 0
          · simp [hr, hrpos, hd]
          · simp [hr, hrpos, hd]
        · simp [hr, hrpos]

theorem mkAlertItem_zero_stock (rates : List (String × ℚ)) (b : ℤ) (p : Product)
    (h : p.stock_quantity = 0) :
    (mkAlertItem rates b p).days_until_stockout = none ∧
      (mkAlertItem rates b p).predicted_out_soon = none := by
  unfold mkAlertItem
  cases hr : alGet rates p.product_id with
  | none => simp
  | some r =>
      by_cases hr0 : r = 0
      · simp [hr0]
      · by_cases hrpos : 0 < r
        · have hd : ((p.stock_quantity : ℚ) / r) = 0 := by
            rw [h]; simp
          simp [hr0, hrpos, hd]
        · simp [hr0, hrpos]

theorem mkAlertItem_days_pos (rates : List (String × ℚ)) (b : ℤ) (p : Product)
    (h : (mkAlertItem rates b p).days_until_stockout ≠ none) :
    (∃ r, (mkAlertItem rates b p).daily_sale_rate = some r ∧ 0 < r) ∧
      0 < (mkAlertItem rates b p).stock_quantity := by
  unfold mkAlertItem at *
  cases hr : alGet rates p.product_id with
  | none => rw [hr] at h; simp at h
  | some r =>
      rw [hr] at h
      by_cases hr0 : r = 0
      · simp [hr0] at h
      · by_cases hrpos : 0 < r
        · by_cases hd : ((p.stock_quantity : ℚ) / r) = 0
          · simp [hr0, hrpos, hd] at h
          · have hq : (p.stock_quantity : ℚ) ≠ 0 := by
              intro h0
              exact hd (by rw [h0]; simp)
            have hqpos : 0 < p.stock_quantity := by
              rcases Nat.eq_zero_or_pos p.stock_quantity with h0 | h0
              · exact absurd (by exact_mod_cast congrArg (fun n : ℕ => (n : ℚ)) h0) hq
              · exact h0
            refine ⟨⟨r, ?_, hrpos⟩, ?_⟩
            · simp [hr0, hrpos, hd]
            · simp [hr0, hrpos, hd, hqpos]
        · simp [hr0, hrpos] at h

theorem generateAlerts_char (rates : List (String × ℚ)) (b : ℤ) (io il : Bool)
    (ps : List Product) (acc : Alerts) :
    ps.foldl (alertStep rates b io il) acc =
      { out_of_stock := acc.out_of_stock
          ++ (ps.filter (fun p => p.stock_quantity = 0 && io)).map (mkAlertItem rates b),
        low_stock := acc.low_stock
          ++ (ps.filter (fun p =>
                (0 < p.stock_quantity) && (p.stock_quantity ≤ p.min_threshold) && il)).map
              (mkAlertItem rates b),
        total_needed := acc.total_needed
          + (((ps.filter (fun p => p.stock_quantity = 0 && io)).map
                (fun p => (mkAlertItem rates b p).needed)).sum
             + ((ps.filter (fun p =>
                  (0 < p.stock_quantity) && (p.stock_quantity ≤ p.min_threshold) && il)).map
                (fun p => (mkAlertItem rates b p).needed)).sum) } := by
  induction ps generalizing acc with
  | nil => simp
  | cons p ps ih =>
      simp only [List.foldl_cons, List.filter_cons]
      by_cases h1 : (p.stock_quantity = 0 && io) = true
      · have h2 : ¬ ((0 < p.stock_quantity) && (p.stock_quantity ≤ p.min_threshold) && il) = true := by
          simp at h1 ⊢
          intro hpos
          omega
        rw [ih]
        simp only [alertStep, h1, h2, if_true, if_false]
        simp at h1
        simp [h1, alertStep]
        ring
      · by_cases h2 : ((0 < p.stock_quantity) && (p.stock_quantity ≤ p.min_threshold) && il) = true
        · rw [ih]
          simp only [alertStep, h1, h2, if_true, if_false]
          simp only [Bool.not_eq_true] at h1
          simp [h1, h2]
          ring
        · rw [ih]
          simp only [alertStep, h1, h2, if_false]
          simp only [Bool.not_eq_true] at h1 h2
          simp [h1, h2]

theorem pyTrunc_of_nonneg (x : ℚ) (h : 0 ≤ x) : pyTrunc x = ⌊x⌋ := by
  simp [pyTrunc, h]

/-- C7: for every product in the catalog and every reorder buffer, the alert
generator classifies a product as OUT_OF_STOCK exactly when its stock is 0
and as LOW_STOCK exactly when 0 < stock ≤ min_threshold; an alerted item's
needed value is max(0, min_threshold − stock) + max(0, buffer) when stock is
strictly below the threshold and 0 otherwise; and total_needed is the sum of
needed over all alerted items. -/
theorem claim_C7_stock_alert_classification :
    ∀ (ps : List Product) (rates : List (String × ℚ)) (b : ℤ),
      (generateLowStockAlerts ps rates true true b).out_of_stock
          = (ps.filter (fun p => p.stock_quantity = 0)).map (mkAlertItem rates b)
      ∧ (generateLowStockAlerts ps rates true true b).low_stock
          = (ps.filter (fun p =>
              (0 < p.stock_quantity) && (p.stock_quantity ≤ p.min_threshold))).map
            (mkAlertItem rates b)
      ∧ (∀ p : Product, (mkAlertItem rates b p).needed
          = if (p.stock_quantity : ℤ) < (p.min_threshold : ℤ)
            then max 0 ((p.min_threshold : ℤ) - (p.stock_quantity : ℤ)) + max 0 b else 0)
      ∧ (generateLowStockAlerts ps rates true true b).total_needed
          = (((generateLowStockAlerts ps rates true true b).out_of_stock
              ++ (generateLowStockAlerts ps rates true true b).low_stock).map
              AlertItem.needed).sum := by
  intro ps rates b
  refine ⟨?_, ?_, ?_, ?_⟩
  · rw [generateLowStockAlerts, generateAlerts_char]
    simp
  · rw [generateLowStockAlerts, generateAlerts_char]
    simp
  · intro p
    rw [mkAlertItem_needed]
    by_cases h : (p.stock_quantity : ℤ) < (p.min_threshold : ℤ)
    · rw [if_pos h, if_pos h]
      omega
    · rw [if_neg h, if_neg h]
  · rw [generateLowStockAlerts, generateAlerts_char]
    simp [List.sum_append, Function.comp_def]

/-- C9: for a product with zero stock the alert omits `days_until_stockout`
and `predicted_out_soon` even when its daily sale rate is positive; and on
every returned alert item, a present `days_until_stockout` implies the
recorded daily sale rate and the stock quantity are both strictly
positive. -/
theorem claim_C9_forecast_fields :
    (∀ (rates : List (String × ℚ)) (b : ℤ) (p : Product),
        p.stock_quantity = 0 →
          (mkAlertItem rates b p).days_until_stockout = none ∧
            (mkAlertItem rates b p).predicted_out_soon = none)
    ∧ (∀ (ps : List Product) (rates : List (String × ℚ)) (io il : Bool) (b : ℤ),
        ∀ item ∈ (generateLowStockAlerts ps rates io il b).out_of_stock
            ++ (generateLowStockAlerts ps rates io il b).low_stock,
          item.days_until_stockout ≠ none →
            (∃ r, item.daily_sale_rate = some r ∧ 0 < r) ∧ 0 < item.stock_quantity) := by
  constructor
  · intro rates b p h
    exact mkAlertItem_zero_stock rates b p h
  · intro ps rates io il b item hmem hdays
    rw [generateLowStockAlerts, generateAlerts_char] at hmem
    simp only [List.nil_append, List.mem_append, List.mem_map, List.mem_filter] at hmem
    rcases hmem with ⟨p, _, hp⟩ | ⟨p, _, hp⟩ <;>
      · subst hp
        exact mkAlertItem_days_pos rates b p hdays

/-- C9 witness: a product with stock 0 and a strictly positive rate in the
sale-rate map still gets no stockout forecast fields. -/
theorem claim_C9_forecast_fields_witness :
    c9Product.stock_quantity = 0 ∧
      ((mkAlertItem [("Z", 3)] 0 c9Product).days_until_stockout = none ∧
        (mkAlertItem [("Z", 3)] 0 c9Product).predicted_out_soon = none) :=
  ⟨rfl, claim_C9_forecast_fields.1 [("Z", 3)] 0 c9Product rfl⟩

/-- C6 (amended): the suggested order quantity is non-negative for every
input, and — for a non-negative lead time and a ledger of validated
(positive-quantity) transactions — equals the amended formula: the
threshold fallback max(0, threshold − stock) when the ledger holds no
EXPORT for the product dated at or after now − days (the code's history
filter has no upper bound, so future-dated transactions count as sales
history), and otherwise max(0, reorder_point − stock) with
safety_stock = max(1, ⌊0.2·r·L⌋) and reorder_point = ⌊r·L⌋ + safety_stock at
the advisor's daily rate r. -/
theorem claim_C6_suggest_order :
    (∀ (p : Product) (tm : Option (List Transaction)) (days lead : ℤ) (now : ℚ),
        0 ≤ suggestOrderQuantity p tm days lead now)
    ∧ (∀ (p : Product) (tm : Option (List Transaction)) (days lead : ℤ) (now : ℚ),
        0 ≤ lead → (∀ l, tm = some l → ∀ t ∈ l, 0 < t.quantity) →
          suggestOrderQuantity p tm days lead now = claimSuggest p tm days lead now) := by
  constructor
  · intro p tm days lead now
    cases tm with
    | none => simp [suggestOrderQuantity]
    | some l =>
        simp only [suggestOrderQuantity]
        split
        · exact le_max_left 0 _
        · exact le_max_left 0 _
  · intro p tm days lead now hlead hq
    cases tm with
    | none => rfl
    | some l =>
        simp only [suggestOrderQuantity, claimSuggest, claimSuggestFormula, advisorRate]
        set txs := l.filter (fun t =>
          t.product_id = p.product_id && t.trans_type = "EXPORT" &&
            decide ((now - (days : ℚ)) ≤ t.date)) with htxs
        by_cases h : txs = []
        · rw [if_pos h, if_pos h]
        · rw [if_neg h, if_neg h]
          set dates := txs.map Transaction.date with hdates
          set total := (txs.map Transaction.quantity).sum with htotal
          set aD : ℤ := (if dates = [] then (1 : ℤ) else max 1 ⌊now - qmin dates⌋) with haD
          set avg : ℚ := ((total : ℤ) : ℚ) / ((aD : ℤ) : ℚ) with havgdef
          have htot : (0 : ℤ) ≤ total := by
            rw [htotal]
            apply List.sum_nonneg
            intro x hx
            rcases List.mem_map.mp hx with ⟨t, ht, hxt⟩
            have := hq l rfl t (List.mem_of_mem_filter ht)
            omega
          have hads : (1 : ℤ) ≤ aD := by
            rw [haD]
            split
            · exact le_refl 1
            · exact le_max_left 1 _
          have havg : (0 : ℚ) ≤ avg := by
            rw [havgdef]
            apply div_nonneg
            · exact_mod_cast htot
            · exact_mod_cast le_trans zero_le_one hads
          have h5 : (0 : ℚ) ≤ 1/5 * avg * ((lead : ℤ) : ℚ) := by
            apply mul_nonneg
            · apply mul_nonneg
              · norm_num
              · exact havg
            · exact_mod_cast hlead
          rw [pyTrunc_of_nonneg _ h5]
          have harg : (0 : ℚ) ≤ avg * ((lead : ℤ) : ℚ)
              + ((max 1 ⌊1/5 * avg * ((lead : ℤ) : ℚ)⌋ : ℤ) : ℚ) := by
            apply add_nonneg
            · exact mul_nonneg havg (by exact_mod_cast hlead)
            · exact_mod_cast le_trans zero_le_one (le_max_left 1 _)
          rw [pyTrunc_of_nonneg _ harg, Int.floor_add_int]


/-- C6 witness: a concrete product, ledger and configuration exercising the
sales-history branch of the advisor. -/
theorem claim_C6_suggest_order_witness :
    ((0 : ℤ) ≤ 7 ∧ ∀ t ∈ c6Txs, 0 < t.quantity) ∧
      suggestOrderQuantity c6Product (some c6Txs) 30 7 10
        = claimSuggest c6Product (some c6Txs) 30 7 10 :=
  ⟨⟨by norm_num, by decide⟩,
    claim_C6_suggest_order.2 c6Product (some c6Txs) 30 7 10 (by norm_num)
      (fun l hl => (Option.some.inj hl) ▸ (by decide))⟩

/-- C6 counterexample: the product (stock 2, threshold 5) has no EXPORT
sales history inside the lookback window `[now − 30, now]` (its only EXPORT
is dated `now + 5`), so the claim asserts the threshold fallback
max(0, 5 − 2) = 3; but the source's history filter (sreach.py line 295)
has no upper bound, counts that future EXPORT, and computes
actual_days = max(1, ⌊10 − 15⌋) = 1, rate 9, safety max(1, ⌊0.2·9·7⌋) = 12,
reorder point 75, suggestion 73. -/
theorem claim_C6_counterexample :
    (c6FutureTxs.filter (fun t =>
        t.product_id = c6Product.product_id && t.trans_type = "EXPORT" &&
          ((10 : ℚ) - ((30 : ℤ) : ℚ) ≤ t.date && t.date ≤ (10 : ℚ))) = [])
    ∧ suggestOrderQuantity c6Product (some c6FutureTxs) 30 7 10 = 73
    ∧ max 0 ((c6Product.min_threshold : ℤ) - (c6Product.stock_quantity : ℤ)) = 3
    ∧ suggestOrderQuantity c6Product (some c6FutureTxs) 30 7 10
        ≠ max 0 ((c6Product.min_threshold : ℤ) - (c6Product.stock_quantity : ℤ)) := by
  have hnotfut : ¬ ((15 : ℚ) ≤ 10) := by norm_num
  have hempty : c6FutureTxs.filter (fun t =>
      t.product_id = c6Product.product_id && t.trans_type = "EXPORT" &&
        ((10 : ℚ) - ((30 : ℤ) : ℚ) ≤ t.date && t.date ≤ (10 : ℚ))) = [] := by
    simp [c6FutureTxs, c6Product, hnotfut]
  have hfull : c6FutureTxs.filter (fun t =>
      t.product_id = c6Product.product_id && t.trans_type = "EXPORT" &&
        decide ((10 : ℚ) - ((30 : ℤ) : ℚ) ≤ t.date)) = c6FutureTxs := by
    simp [c6FutureTxs, c6Product]
    norm_num
  have hcode : suggestOrderQuantity c6Product (some c6FutureTxs) 30 7 10 = 73 := by
    simp only [suggestOrderQuantity]
    rw [hfull]
    rw [if_neg (by simp [c6FutureTxs] : ¬ (c6FutureTxs = []))]
    have e2 : (c6FutureTxs.map Transaction.quantity).sum = 9 := by
      simp [c6FutureTxs]
    have e3 : ¬ (c6FutureTxs.map Transaction.date = []) := by
      simp [c6FutureTxs]
    have e1 : qmin (c6FutureTxs.map Transaction.date) = 15 := by
      simp [qmin, c6FutureTxs]
    rw [e2, if_neg e3, e1]
    have e4 : ⌊(10 : ℚ) - 15⌋ = -5 := by norm_num
    rw [e4]
    have e5 : max (1 : ℤ) (-5) = 1 := by norm_num
    rw [e5]
    have e6 : (((9 : ℤ) : ℚ)) / (((1 : ℤ) : ℚ)) = 9 := by norm_num
    rw [e6]
    have e7 : pyTrunc (1/5 * (9 : ℚ) * ((7 : ℤ) : ℚ)) = 12 := by
      rw [pyTrunc_of_nonneg _ (by norm_num)]
      norm_num
    rw [e7]
    have e8 : max (1 : ℤ) 12 = 12 := by norm_num
    rw [e8]
    have e9 : pyTrunc ((9 : ℚ) * ((7 : ℤ) : ℚ) + ((12 : ℤ) : ℚ)) = 75 := by
      rw [pyTrunc_of_nonneg _ (by norm_num)]
      norm_num
    rw [e9]
    simp [c6Product]
  refine ⟨hempty, hcode, by decide, ?_⟩
  rw [hcode]
  decide

-- ==============================
-- Demand-estimator lemmas and claim C1
-- ==============================

theorem srTotals_getD (txs : List TxDict) (S : Option (List String)) (now : ℚ) (d : ℤ)
    (pid : String) :
    (alGet (srTotals txs S now d) pid).getD 0
      = ((txs.filter (fun t => srCounts S now d t && strTrim t.product_id = pid)).map
          TxDict.quantity).sum := by
  have := alGet_foldl_add_getD (fun t => srCounts S now d t)
    (fun t => strTrim t.product_id) TxDict.quantity txs [] pid
  simpa [srTotals, alGet] using this

theorem srTotals_eq_none (txs : List TxDict) (S : Option (List String)) (now : ℚ) (d : ℤ)
    (pid : String) :
    alGet (srTotals txs S now d) pid = none
      ↔ (txs.filter (fun t => srCounts S now d t && strTrim t.product_id = pid)) = [] := by
  have := alGet_foldl_add_eq_none (fun t => srCounts S now d t)
    (fun t => strTrim t.product_id) TxDict.quantity txs [] pid
  simpa [srTotals, alGet] using this

theorem srCounts_and_eq (S : Option (List String)) (now : ℚ) (d : ℤ) (pid : String)
    (t : TxDict) (h : t.type_present = some "EXPORT" ∨ t.type_present = some "IMPORT") :
    (srCounts S now d t && decide (strTrim t.product_id = pid))
      = amendedQualifies S now d pid t := by
  rw [Bool.eq_iff_iff]
  rcases h with h | h
  · have hup : strUpper "EXPORT" = "EXPORT" := by decide
    have hou : ("EXPORT" : String) ≠ "OUT" := by decide
    have hee : ("EXPORT" : String) = "EXPORT" := rfl
    simp only [srCounts, amendedQualifies, txType, h, Option.getD_some, hup]
    by_cases hpid : strTrim t.product_id = pid
    · subst hpid
      simp only [Bool.and_eq_true, Bool.or_eq_true, decide_eq_true_eq]
      tauto
    · simp only [Bool.and_eq_true, Bool.or_eq_true, decide_eq_true_eq]
      tauto
  · have hup : strUpper "IMPORT" = "IMPORT" := by decide
    have hou : ("IMPORT" : String) ≠ "OUT" := by decide
    have hoe : ("IMPORT" : String) ≠ "EXPORT" := by decide
    simp only [srCounts, amendedQualifies, txType, h, Option.getD_some, hup]
    simp only [Bool.and_eq_true, Bool.or_eq_true, decide_eq_true_eq]
    tauto

/-- C1 counterexample: an EXPORT transaction dated 5 days after `now` is
counted by `compute_sale_rates` (the source only bounds the window from
below), while the claim's closed window `[now − 30, now]` excludes it, so
the claimed rate map differs from the computed one. -/
theorem claim_C1_counterexample :
    alGet (computeSaleRates [c1FutureTx] none 0 30) "A" = some 2 ∧
      claimRate [c1FutureTx] none 0 30 "A" = none ∧
      alGet (computeSaleRates [c1FutureTx] none 0 30) "A"
        ≠ claimRate [c1FutureTx] none 0 30 "A" := by
  have h1 : strUpper "EXPORT" = "EXPORT" := by decide
  have h2 : strTrim "A" = "A" := by decide
  have hfut : ¬ ((5 : ℚ) ≤ 0) := by norm_num
  have hc : srCounts none 0 30 c1FutureTx = true := by
    simp [srCounts, c1FutureTx, txType, h1, h2]
    norm_num
  have ht : srTotals [c1FutureTx] none 0 30 = [("A", 60)] := by
    simp only [srTotals, List.foldl_cons, List.foldl_nil, hc, if_true]
    simp [c1FutureTx, alAdd, h2]
  have hrate : round2 ((60 : ℚ) / 30) = 2 := by
    have hv : ((60 : ℚ) / 30) = 2 := by norm_num
    rw [hv]
    unfold round2 roundHalfEven
    norm_num
  have hleft : alGet (computeSaleRates [c1FutureTx] none 0 30) "A" = some 2 := by
    simp [computeSaleRates, ht, alGet, normFilter]
    convert hrate using 2
  have hq : claimQualifies none 0 30 "A" c1FutureTx = false := by
    simp [claimQualifies, c1FutureTx, txType, h1, h2, hfut]
  have hright : claimRate [c1FutureTx] none 0 30 "A" = none := by
    simp [claimRate, normFilter, hq]
  refine ⟨hleft, hright, ?_⟩
  rw [hleft, hright]
  simp

/-- C1 (amended): for transaction collections carrying the validated types
IMPORT/EXPORT, the rate map of `compute_sale_rates` assigns to each product
the sum of its EXPORT quantities dated at or after `now − d` (no upper
bound, so future-dated transactions are included) divided by `max 1 d`,
rounded to two decimals; IMPORT transactions contribute nothing, and a
product with no qualifying EXPORT transaction is absent from the map. -/
theorem claim_C1_amended_sale_rates :
    ∀ (txs : List TxDict) (ids : Option (List String)) (now : ℚ) (d : ℤ) (pid : String),
      (∀ t ∈ txs, t.type_present = some "EXPORT" ∨ t.type_present = some "IMPORT") →
      alGet (computeSaleRates txs ids now d) pid = amendedRate txs ids now d pid := by
  intro txs ids now d pid h
  unfold computeSaleRates amendedRate
  rw [alGet_map_value (fun v => round2 (v / max 1 (d : ℚ)))]
  have hfc : txs.filter
        (fun t => srCounts (normFilter ids) now d t && decide (strTrim t.product_id = pid))
      = txs.filter (amendedQualifies (normFilter ids) now d pid) := by
    apply List.filter_congr
    intro t ht
    exact srCounts_and_eq _ now d pid t (h t ht)
  by_cases hnil : txs.filter (amendedQualifies (normFilter ids) now d pid) = []
  · have h0 : alGet (srTotals txs (normFilter ids) now d) pid = none := by
      rw [srTotals_eq_none, hfc]
      exact hnil
    rw [h0]
    simp [hnil]
  · have h1 : alGet (srTotals txs (normFilter ids) now d) pid ≠ none := by
      rw [Ne, srTotals_eq_none, hfc]
      exact hnil
    obtain ⟨v, hv⟩ := Option.ne_none_iff_exists'.mp h1
    have hval : v = ((txs.filter (amendedQualifies (normFilter ids) now d pid)).map
        TxDict.quantity).sum := by
      have hg := srTotals_getD txs (normFilter ids) now d pid
      rw [hv, hfc] at hg
      simpa using hg
    rw [hv]
    simp [hnil, hval]

/-- C1 amended witness: the future-dated EXPORT yields the rate 2 under the
amended reading as well. -/
theorem claim_C1_amended_sale_rates_witness :
    (∀ t ∈ [c1FutureTx], t.type_present = some "EXPORT" ∨ t.type_present = some "IMPORT") ∧
      alGet (computeSaleRates [c1FutureTx] none 0 30) "A"
        = amendedRate [c1FutureTx] none 0 30 "A" :=
  ⟨by decide, claim_C1_amended_sale_rates [c1FutureTx] none 0 30 "A" (by decide)⟩

-- ==============================
-- Financial-aggregator lemmas and claims C2, C3, C10
-- ==============================

theorem fsAccumulate_char (ps : List Product) (m y : Option ℤ) (txs : List FTx) (acc : FSAcc) :
    txs.foldl (fsStep ps m y) acc =
      { revenue := acc.revenue
          + ((txs.filter (fun t => fsCounted m y t && fsIsExport t)).map
              (fun t => sellPriceOf ps (strTrim t.product_id) * t.quantity)).sum,
        cost := acc.cost
          + ((txs.filter (fun t => fsCounted m y t && (fsIsExport t || fsIsImport t))).map
              (fun t => costPriceOf ps (strTrim t.product_id) * t.quantity)).sum,
        sold := txs.foldl (fun a t =>
          if fsCounted m y t && fsIsExport t
          then alAdd 0 a (strTrim t.product_id) t.quantity else a) acc.sold } := by
  induction txs generalizing acc with
  | nil => simp
  | cons t ts ih =>
      simp only [List.foldl_cons, List.filter_cons]
      by_cases h1 : fsCounted m y t
      · by_cases h2 : fsIsExport t
        · rw [ih]
          simp only [fsStep, fsIsExport] at h2 ⊢
          simp [h1, h2, add_assoc]
        · by_cases h3 : fsIsImport t
          · rw [ih]
            have h2' : ¬ (strUpper t.trans_type = "EXPORT" ∨ strUpper t.trans_type = "OUT") := by
              simpa [fsIsExport] using h2
            obtain ⟨h2a, h2b⟩ := not_or.mp h2'
            have h3p : strUpper t.trans_type = "IMPORT" := by
              simpa [fsIsImport] using h3
            simp only [fsStep] at *
            simp [h1, h2, h3p, h2a, h2b, fsIsExport, fsIsImport, add_assoc]
          · rw [ih]
            have h2' : ¬ (strUpper t.trans_type = "EXPORT" ∨ strUpper t.trans_type = "OUT") := by
              simpa [fsIsExport] using h2
            obtain ⟨h2a, h2b⟩ := not_or.mp h2'
            have h3' : ¬ (strUpper t.trans_type = "IMPORT") := by
              simpa [fsIsImport] using h3
            simp only [fsStep] at *
            simp [h1, h2, h3, h2a, h2b, h3', fsIsExport, fsIsImport]
      · rw [ih]
        simp [fsStep, h1]

theorem fsIsExport_valid (t : FTx)
    (h : t.trans_type = "EXPORT" ∨ t.trans_type = "IMPORT") :
    fsIsExport t = decide (t.trans_type = "EXPORT") := by
  rcases h with h | h
  · have : strUpper "EXPORT" = "EXPORT" := by decide
    simp [fsIsExport, h, this]
  · have h1 : strUpper "IMPORT" = "IMPORT" := by decide
    have h2 : ("IMPORT" : String) ≠ "EXPORT" := by decide
    have h3 : ("IMPORT" : String) ≠ "OUT" := by decide
    simp [fsIsExport, h, h1, h2, h3]

theorem fsExpOrImp_valid (t : FTx)
    (h : t.trans_type = "EXPORT" ∨ t.trans_type = "IMPORT") :
    (fsIsExport t || fsIsImport t) = true := by
  rcases h with h | h
  · have : strUpper "EXPORT" = "EXPORT" := by decide
    simp [fsIsExport, h, this]
  · have : strUpper "IMPORT" = "IMPORT" := by decide
    simp [fsIsExport, fsIsImport, h, this]

/-- C2: contributions of counted transactions to the financial totals: each
counted EXPORT adds sell·qty to revenue and cost·qty to cost and qty to the
product's sold quantity (zero prices for a product missing from the
catalog, its quantity still recorded); each counted IMPORT adds cost·qty to
cost only; profit = revenue − cost; and the claim's concrete scenario yields
revenue 156000, cost 104000, profit 52000. -/
theorem claim_C2_financial_contributions :
    (∀ (ps : List Product) (txs : List FTx) (k : ℕ) (z : Bool) (m y : Option ℤ),
      (∀ t ∈ txs, t.trans_type = "EXPORT" ∨ t.trans_type = "IMPORT") →
      (computeFinancialSummary ps txs k z m y).total_revenue
          = ((txs.filter (fun t => fsCounted m y t && t.trans_type = "EXPORT")).map
              (fun t => sellPriceOf ps (strTrim t.product_id) * t.quantity)).sum
      ∧ (computeFinancialSummary ps txs k z m y).total_cost
          = ((txs.filter (fun t => fsCounted m y t)).map
              (fun t => costPriceOf ps (strTrim t.product_id) * t.quantity)).sum
      ∧ (computeFinancialSummary ps txs k z m y).total_profit
          = (computeFinancialSummary ps txs k z m y).total_revenue
            - (computeFinancialSummary ps txs k z m y).total_cost
      ∧ (∀ pid : String,
          (alGet (computeFinancialSummary ps txs k z m y).product_sales pid).getD 0
            = ((txs.filter (fun t => fsCounted m y t && t.trans_type = "EXPORT"
                && strTrim t.product_id = pid)).map FTx.quantity).sum))
    ∧ ((computeFinancialSummary scenProducts scenTxs 5 false none none).total_revenue = 156000
      ∧ (computeFinancialSummary scenProducts scenTxs 5 false none none).total_cost = 104000
      ∧ (computeFinancialSummary scenProducts scenTxs 5 false none none).total_profit = 52000) := by
  constructor
  · intro ps txs k z m y h
    have hchar := fsAccumulate_char ps m y txs { revenue := 0, cost := 0, sold := [] }
    have hrevf : txs.filter (fun t => fsCounted m y t && fsIsExport t)
        = txs.filter (fun t => fsCounted m y t && t.trans_type = "EXPORT") := by
      apply List.filter_congr
      intro t ht
      rw [fsIsExport_valid t (h t ht)]
    have hcostf : txs.filter (fun t => fsCounted m y t && (fsIsExport t || fsIsImport t))
        = txs.filter (fun t => fsCounted m y t) := by
      apply List.filter_congr
      intro t ht
      rw [fsExpOrImp_valid t (h t ht)]
      simp
    refine ⟨?_, ?_, ?_, ?_⟩
    · show (fsAccumulate ps txs m y).revenue = _
      rw [fsAccumulate, hchar]
      simp [hrevf]
    · show (fsAccumulate ps txs m y).cost = _
      rw [fsAccumulate, hchar]
      simp [hcostf]
    · rfl
    · intro pid
      show (alGet (fsAccumulate ps txs m y).sold pid).getD 0 = _
      rw [fsAccumulate, hchar]
      have hg := alGet_foldl_add_getD (fun t => fsCounted m y t && fsIsExport t)
        (fun t => strTrim t.product_id) FTx.quantity txs [] pid
      simp only [alGet] at hg
      rw [hg]
      simp only [Option.getD_none, zero_add]
      congr 1
      congr 1
      apply List.filter_congr
      intro t ht
      rw [fsIsExport_valid t (h t ht)]
  · have hP1 : strTrim "P1" = "P1" := by decide
    have hP2 : strTrim "P2" = "P2" := by decide
    have hup : strUpper "EXPORT" = "EXPORT" := by decide
    have hacc : fsAccumulate scenProducts scenTxs none none
        = { revenue := 156000, cost := 104000, sold := [("P1", 10), ("P2", 2)] } := by
      simp only [fsAccumulate, scenTxs, List.foldl_cons, List.foldl_nil]
      simp [fsStep, fsCounted, inPeriod, hP1, hP2, hup, alAdd, sellPriceOf, costPriceOf,
        findProduct, scenProducts, scenP1, scenP2]
      norm_num
    refine ⟨?_, ?_, ?_⟩
    · show (fsAccumulate scenProducts scenTxs none none).revenue = 156000
      rw [hacc]
    · show (fsAccumulate scenProducts scenTxs none none).cost = 104000
      rw [hacc]
    · show (fsAccumulate scenProducts scenTxs none none).revenue
          - (fsAccumulate scenProducts scenTxs none none).cost = 52000
      rw [hacc]
      norm_num

/-- C2 witness: the universal part applied to the scenario inputs. -/
theorem claim_C2_financial_contributions_witness :
    (∀ t ∈ scenTxs, t.trans_type = "EXPORT" ∨ t.trans_type = "IMPORT") ∧
      (computeFinancialSummary scenProducts scenTxs 5 false none none).total_revenue
        = ((scenTxs.filter (fun t => fsCounted none none t && t.trans_type = "EXPORT")).map
            (fun t => sellPriceOf scenProducts (strTrim t.product_id) * t.quantity)).sum :=
  ⟨by decide,
    (claim_C2_financial_contributions.1 scenProducts scenTxs 5 false none none (by decide)).1⟩

theorem mkSellerEntry_pid (ps : List Product) (it : String × ℤ) :
    (mkSellerEntry ps it).product_id = it.1 := by
  unfold mkSellerEntry
  cases h : findProduct ps it.1 <;> simp

/-- C3 counterexample: with two products tying at quantity 5 but first
appearing in the order B, A, the computed top-sellers list keeps B before A
(Python's sort is stable), while the claimed ascending-identifier tie-break
would put A first. -/
theorem claim_C3_counterexample :
    (computeFinancialSummary c3Products c3Txs 5 false none none).top_sellers.map
        SellerEntry.product_id = ["B", "A"]
    ∧ (claimTopSellers c3Products c3Txs 5 none none).map SellerEntry.product_id = ["A", "B"]
    ∧ (computeFinancialSummary c3Products c3Txs 5 false none none).top_sellers
        ≠ claimTopSellers c3Products c3Txs 5 none none := by
  have hA : strTrim "A" = "A" := by decide
  have hB : strTrim "B" = "B" := by decide
  have hup : strUpper "EXPORT" = "EXPORT" := by decide
  have hsold : (fsAccumulate c3Products c3Txs none none).sold = [("B", 5), ("A", 5)] := by
    have := fsAccumulate_char c3Products none none c3Txs { revenue := 0, cost := 0, sold := [] }
    rw [fsAccumulate, this]
    simp only [c3Txs, List.foldl_cons, List.foldl_nil]
    simp [fsCounted, inPeriod, fsIsExport, hA, hB, hup, alAdd]
  have hdesc : sortSoldDesc [("B", (5 : ℤ)), ("A", 5)] = [("B", 5), ("A", 5)] := by
    simp [sortSoldDesc, stableSort, stableInsert]
  have hclaim : claimSortDesc [("B", (5 : ℤ)), ("A", 5)] = [("A", 5), ("B", 5)] := by
    have hAB : strLt "A" "B" = true := by decide
    simp [claimSortDesc, stableSort, stableInsert, hAB]
  have h1 : (computeFinancialSummary c3Products c3Txs 5 false none none).top_sellers.map
      SellerEntry.product_id = ["B", "A"] := by
    show (((sortSoldDesc (fsAccumulate c3Products c3Txs none none).sold).take 5).map
      (mkSellerEntry c3Products)).map SellerEntry.product_id = ["B", "A"]
    rw [hsold, hdesc]
    simp [mkSellerEntry_pid]
  have h2 : (claimTopSellers c3Products c3Txs 5 none none).map SellerEntry.product_id
      = ["A", "B"] := by
    show (((claimSortDesc (fsAccumulate c3Products c3Txs none none).sold).take 5).map
      (mkSellerEntry c3Products)).map SellerEntry.product_id = ["A", "B"]
    rw [hsold, hclaim]
    simp [mkSellerEntry_pid]
  refine ⟨h1, h2, ?_⟩
  intro heq
  rw [heq, h2] at h1
  simp at h1

/-- C3 (amended): the top-sellers list consists of the sold-quantity
accumulator entries sorted by descending quantity with ties kept in the
accumulator's first-appearance order (formalised by sorting the
position-annotated entries under the strict key: quantity descending,
position ascending), truncated to the first top_k entries. -/
theorem claim_C3_amended_top_sellers :
    ∀ (ps : List Product) (txs : List FTx) (k : ℕ) (z : Bool) (m y : Option ℤ),
      (computeFinancialSummary ps txs k z m y).top_sellers
        = amendedTopSellers ps txs k m y := by
  intro ps txs k z m y
  show (((sortSoldDesc (fsAccumulate ps txs m y).sold).take k).map (mkSellerEntry ps))
      = ((amendedSortDesc (fsAccumulate ps txs m y).sold).take k).map (mkSellerEntry ps)
  rw [amendedSortDesc_eq_sortSoldDesc]

theorem alAdd_pos (k : String) (q : ℤ) (hq : 0 < q) :
    ∀ (l : List (String × ℤ)), (∀ kv ∈ l, 0 < kv.2) → ∀ kv ∈ alAdd 0 l k q, 0 < kv.2 := by
  intro l
  induction l with
  | nil =>
      intro hl kv hkv
      simp [alAdd] at hkv
      subst hkv
      simpa using hq
  | cons x xs ih =>
      intro hl kv hkv
      by_cases hx : x.1 = k
      · simp [alAdd, hx] at hkv
        rcases hkv with hkv | hkv
        · subst hkv
          have := hl x (List.mem_cons_self x xs)
          simp only []
          omega
        · exact hl kv (List.mem_cons_of_mem x hkv)
      · simp [alAdd, hx] at hkv
        rcases hkv with hkv | hkv
        · rw [hkv]
          simpa using hl x (List.mem_cons_self x xs)
        · exact ih (fun p hp => hl p (List.mem_cons_of_mem x hp)) kv hkv

theorem foldl_alAdd_pos {τ : Type} (c : τ → Bool) (key : τ → String) (val : τ → ℤ)
    (hval : ∀ t, c t = true → 0 < val t) (txs : List τ) (acc : List (String × ℤ))
    (hacc : ∀ kv ∈ acc, 0 < kv.2) :
    ∀ kv ∈ txs.foldl (fun a t => if c t then alAdd 0 a (key t) (val t) else a) acc,
      0 < kv.2 := by
  induction txs generalizing acc with
  | nil => exact hacc
  | cons t ts ih =>
      simp only [List.foldl_cons]
      by_cases hc : c t
      · rw [if_pos hc]
        exact ih _ (alAdd_pos (key t) (val t) (hval t hc) acc hacc)
      · rw [if_neg hc]
        exact ih _ hacc

theorem product_sales_pos (ps : List Product) (txs : List FTx) (m y : Option ℤ) :
    ∀ kv ∈ (fsAccumulate ps txs m y).sold, 0 < kv.2 := by
  have hchar := fsAccumulate_char ps m y txs { revenue := 0, cost := 0, sold := [] }
  rw [fsAccumulate, hchar]
  apply foldl_alAdd_pos
  · intro t hc
    have hcount : fsCounted m y t = true := by
      cases hfc : fsCounted m y t
      · rw [hfc] at hc
        simp at hc
      · rfl
    simp only [fsCounted, Bool.and_eq_true, decide_eq_true_eq] at hcount
    omega
  · intro kv hkv
    simp at hkv

/-- C10: the least-purchased list is identical whether or not zero-sales
entries are requested, because the sold-quantity accumulator only ever holds
strictly positive quantities, so the zero-sales exclusion filter removes
nothing. -/
theorem claim_C10_least_purchased_flag :
    ∀ (ps : List Product) (txs : List FTx) (k : ℕ) (m y : Option ℤ),
      (computeFinancialSummary ps txs k true m y).least_purchased
          = (computeFinancialSummary ps txs k false m y).least_purchased
      ∧ (∀ kv ∈ (computeFinancialSummary ps txs k true m y).product_sales, 0 < kv.2) := by
  intro ps txs k m y
  have hpos := product_sales_pos ps txs m y
  constructor
  · show (((sortSoldAsc (fsAccumulate ps txs m y).sold).take k).map (mkSellerEntry ps))
        = ((((sortSoldAsc (fsAccumulate ps txs m y).sold).filter
            (fun it => 0 < it.2)).take k).map (mkSellerEntry ps))
    have hfilter : (sortSoldAsc (fsAccumulate ps txs m y).sold).filter (fun it => 0 < it.2)
        = sortSoldAsc (fsAccumulate ps txs m y).sold := by
      apply List.filter_eq_self.mpr
      intro a ha
      have : a ∈ (fsAccumulate ps txs m y).sold := by
        have := (mem_stableSort (fun y x => y.2 < x.2) a
          ((fsAccumulate ps txs m y).sold)).mp
        exact this ha
      simpa using hpos a this
    rw [hfilter]
  · exact hpos

-- ==============================
-- Search-engine lemmas and claims C4, C5, C8
-- ==============================

theorem exists_of_findSome {α β : Type} (f : α → Option β) (l : List α) (b : β)
    (h : l.findSome? f = some b) : ∃ a ∈ l, f a = some b := by
  induction l with
  | nil => simp [List.findSome?] at h
  | cons x xs ih =>
      rw [List.findSome?] at h
      cases hf : f x with
      | some v =>
          rw [hf] at h
          simp at h
          exact ⟨x, List.mem_cons_self x xs, by rw [hf, h]⟩
      | none =>
          rw [hf] at h
          simp only [] at h
          obtain ⟨a, ha, hfa⟩ := ih h
          exact ⟨a, List.mem_cons_of_mem x ha, hfa⟩

theorem entryResult_score (ora : NormOracle) (tm : Option (List Transaction))
    (kwn kwp : String) (field : Option String) (fz : Bool) (e : IndexEntry) (r : SResult)
    (h : entryResult ora tm kwn kwp field fz e = some r) :
    r.search_score = tierBase r.match_type + min 50 (popularity tm r.product_id) := by
  unfold entryResult at h
  obtain ⟨f, _, hsome⟩ := exists_of_findSome _ _ _ h
  rcases Option.map_eq_some'.mp hsome with ⟨mt, _, hr⟩
  rw [← hr]

theorem searchBody_results_score (ora : NormOracle) (ps : List Product)
    (tm : Option (List Transaction)) (kwn kwp : String) (field cat : Option String)
    (fz : Bool) (page per : ℤ) (r : SResult)
    (h : r ∈ (searchBody ora ps tm kwn kwp field cat fz page per).results) :
    r.search_score = tierBase r.match_type + min 50 (popularity tm r.product_id) := by
  unfold searchBody at h
  simp only at h
  have h1 : r ∈ sortResults ((buildIndex ora ps).filterMap (fun e =>
      if catSkip cat e.product then none
      else entryResult ora tm kwn kwp field fz e)) := mem_of_mem_pySlice h
  have h2 : r ∈ (buildIndex ora ps).filterMap (fun e =>
      if catSkip cat e.product then none
      else entryResult ora tm kwn kwp field fz e) := by
    have := (mem_stableSort _ r _).mp h1
    exact this
  obtain ⟨e, _, hfe⟩ := List.mem_filterMap.mp h2
  by_cases hskip : catSkip cat e.product
  · rw [if_pos hskip] at hfe
    exact absurd hfe (by simp)
  · rw [if_neg hskip] at hfe
    exact entryResult_score ora tm kwn kwp field fz e r hfe

/-- C4: every result returned by `search_products` carries the score
base-of-tier + min(50, EXPORT-popularity of the product), with bases 300
(prefix), 200 (substring), 100 (fuzzy); the boost never exceeds 50, and for
equal popularity the tiers rank strictly prefix > substring > fuzzy. -/
theorem claim_C4_search_scoring :
    (∀ (ora : NormOracle) (ps : List Product) (tm : Option (List Transaction))
        (kw : String) (field cat : Option String) (fz : Bool) (page per : ℤ)
        (out : SearchOut) (r : SResult),
        searchProducts ora ps tm kw field cat fz page per = .ok out →
        r ∈ out.results →
        r.search_score = tierBase r.match_type + min 50 (popularity tm r.product_id))
    ∧ (∀ (tm : Option (List Transaction)) (pid : String),
        min 50 (popularity tm pid) ≤ 50)
    ∧ (∀ b : ℕ, tierBase .matchFuz + b < tierBase .matchSub + b
        ∧ tierBase .matchSub + b < tierBase .matchPre + b) := by
  refine ⟨?_, ?_, ?_⟩
  · intro ora ps tm kw field cat fz page per out r hok hmem
    unfold searchProducts at hok
    by_cases hkw : kw = ""
    · rw [if_pos hkw] at hok
      have : out = { results := [], total := 0, facets := [] } := by
        injection hok with h
        exact h.symm
      rw [this] at hmem
      simp at hmem
    · rw [if_neg hkw] at hok
      cases hfield : field with
      | none =>
          rw [hfield] at hok
          dsimp only at hok
          have hout : out = searchBody ora ps tm (normalizeName kw) (ora.removeAcc kw)
              none cat fz page per := by
            injection hok with h
            exact h.symm
          rw [hout] at hmem
          exact searchBody_results_score ora ps tm _ _ none cat fz page per r hmem
      | some f =>
          rw [hfield] at hok
          dsimp only at hok
          by_cases hbad : (f ≠ "" && decide (f ∉ allowedFields)) = true
          · rw [if_pos hbad] at hok
            exact absurd hok (by simp)
          · rw [if_neg hbad] at hok
            have hout : out = searchBody ora ps tm (normalizeName kw) (ora.removeAcc kw)
                (some f) cat fz page per := by
              injection hok with h
              exact h.symm
            rw [hout] at hmem
            exact searchBody_results_score ora ps tm _ _ (some f) cat fz page per r hmem
  · intro tm pid
    exact min_le_left 50 _
  · intro b
    constructor
    · simp [tierBase]
    · simp [tierBase]

/-- C5: the facet counts of `search_products` are computed over the whole
matched set: their sum equals the pre-pagination total, and both the facet
map and the total are independent of the requested page and page size. -/
theorem claim_C5_facets :
    (∀ (ora : NormOracle) (ps : List Product) (tm : Option (List Transaction))
        (kw : String) (field cat : Option String) (fz : Bool) (page per : ℤ)
        (out : SearchOut),
        searchProducts ora ps tm kw field cat fz page per = .ok out →
        ((out.facets.map Prod.snd).sum = out.total))
    ∧ (∀ (ora : NormOracle) (ps : List Product) (tm : Option (List Transaction))
        (kw : String) (field cat : Option String) (fz : Bool)
        (page per page' per' : ℤ) (out out' : SearchOut),
        searchProducts ora ps tm kw field cat fz page per = .ok out →
        searchProducts ora ps tm kw field cat fz page' per' = .ok out' →
        out.facets = out'.facets ∧ out.total = out'.total) := by
  have hbody : ∀ ora ps tm kwn kwp field cat fz page per,
      (((searchBody ora ps tm kwn kwp field cat fz page per).facets.map Prod.snd).sum
        = (searchBody ora ps tm kwn kwp field cat fz page per).total) := by
    intro ora ps tm kwn kwp field cat fz page per
    unfold searchBody
    simp only
    rw [sum_values_count_foldl (fun r : SResult => r.category)]
    simp
  have hindep : ∀ ora ps tm kwn kwp field cat fz page per page' per',
      (searchBody ora ps tm kwn kwp field cat fz page per).facets
          = (searchBody ora ps tm kwn kwp field cat fz page' per').facets
        ∧ (searchBody ora ps tm kwn kwp field cat fz page per).total
          = (searchBody ora ps tm kwn kwp field cat fz page' per').total := by
    intro ora ps tm kwn kwp field cat fz page per page' per'
    constructor <;> rfl
  constructor
  · intro ora ps tm kw field cat fz page per out hok
    unfold searchProducts at hok
    by_cases hkw : kw = ""
    · rw [if_pos hkw] at hok
      have : out = { results := [], total := 0, facets := [] } := by
        injection hok with h
        exact h.symm
      rw [this]
      simp
    · rw [if_neg hkw] at hok
      cases hfield : field with
      | none =>
          rw [hfield] at hok
          dsimp only at hok
          have hout : out = searchBody ora ps tm (normalizeName kw) (ora.removeAcc kw)
              none cat fz page per := by
            injection hok with h
            exact h.symm
          rw [hout]
          exact hbody ora ps tm _ _ none cat fz page per
      | some f =>
          rw [hfield] at hok
          dsimp only at hok
          by_cases hbad : (f ≠ "" && decide (f ∉ allowedFields)) = true
          · rw [if_pos hbad] at hok
            exact absurd hok (by simp)
          · rw [if_neg hbad] at hok
            have hout : out = searchBody ora ps tm (normalizeName kw) (ora.removeAcc kw)
                (some f) cat fz page per := by
              injection hok with h
              exact h.symm
            rw [hout]
            exact hbody ora ps tm _ _ (some f) cat fz page per
  · intro ora ps tm kw field cat fz page per page' per' out out' hok hok'
    unfold searchProducts at hok hok'
    by_cases hkw : kw = ""
    · rw [if_pos hkw] at hok hok'
      have h1 : out = { results := [], total := 0, facets := [] } := by
        injection hok with h
        exact h.symm
      have h2 : out' = { results := [], total := 0, facets := [] } := by
        injection hok' with h
        exact h.symm
      rw [h1, h2]
      exact ⟨rfl, rfl⟩
    · rw [if_neg hkw] at hok hok'
      cases hfield : field with
      | none =>
          rw [hfield] at hok hok'
          dsimp only at hok hok'
          have h1 : out = searchBody ora ps tm (normalizeName kw) (ora.removeAcc kw)
              none cat fz page per := by
            injection hok with h
            exact h.symm
          have h2 : out' = searchBody ora ps tm (normalizeName kw) (ora.removeAcc kw)
              none cat fz page' per' := by
            injection hok' with h
            exact h.symm
          rw [h1, h2]
          exact hindep ora ps tm _ _ none cat fz page per page' per'
      | some f =>
          rw [hfield] at hok hok'
          dsimp only at hok hok'
          by_cases hbad : (f ≠ "" && decide (f ∉ allowedFields)) = true
          · rw [if_pos hbad] at hok
            exact absurd hok (by simp)
          · rw [if_neg hbad] at hok hok'
            have h1 : out = searchBody ora ps tm (normalizeName kw) (ora.removeAcc kw)
                (some f) cat fz page per := by
              injection hok with h
              exact h.symm
            have h2 : out' = searchBody ora ps tm (normalizeName kw) (ora.removeAcc kw)
                (some f) cat fz page' per' := by
              injection hok' with h
              exact h.symm
            rw [h1, h2]
            exact hindep ora ps tm _ _ (some f) cat fz page per page' per'

/-- C4 witness: a prefix match on a product with popularity 0 scores
exactly 300 = tier base + capped boost. -/
theorem claim_C4_search_scoring_witness :
    (searchProducts idOracle [c4Product] (some []) "AB" none none true 1 20
        = Except.ok ⟨[⟨"AB", "Apple", "Fruit", "product_id", .matchPre, 300⟩], 1,
            [("Fruit", 1)]⟩)
    ∧ (⟨"AB", "Apple", "Fruit", "product_id", .matchPre, 300⟩ : SResult).search_score
        = tierBase (⟨"AB", "Apple", "Fruit", "product_id", .matchPre, 300⟩ :
            SResult).match_type
          + min 50 (popularity (some [])
              (⟨"AB", "Apple", "Fruit", "product_id", .matchPre, 300⟩ : SResult).product_id) :=
  ⟨rfl,
    claim_C4_search_scoring.1 idOracle [c4Product] (some []) "AB" none none true 1 20
      ⟨[⟨"AB", "Apple", "Fruit", "product_id", .matchPre, 300⟩], 1, [("Fruit", 1)]⟩
      ⟨"AB", "Apple", "Fruit", "product_id", .matchPre, 300⟩ rfl
      (List.mem_singleton.mpr rfl)⟩

/-- C5 witness: the facet counts of the concrete search sum to its total. -/
theorem claim_C5_facets_witness :
    ((⟨[⟨"AB", "Apple", "Fruit", "product_id", .matchPre, 300⟩], 1, [("Fruit", 1)]⟩ :
        SearchOut).facets.map Prod.snd).sum
      = (⟨[⟨"AB", "Apple", "Fruit", "product_id", .matchPre, 300⟩], 1, [("Fruit", 1)]⟩ :
        SearchOut).total :=
  claim_C5_facets.1 idOracle [c4Product] (some []) "AB" none none true 1 20
    ⟨[⟨"AB", "Apple", "Fruit", "product_id", .matchPre, 300⟩], 1, [("Fruit", 1)]⟩ rfl

/-- C8 counterexample: with an empty keyword the invalid field "bogus" is
not rejected (search returns the empty result before validating the field);
an empty-string field restriction with a non-empty keyword is treated as
"no restriction" rather than rejected; and the autocomplete validation
error names only the offending field, not the allowed set (its message does
not even mention "product_id", while the search error does). -/
theorem claim_C8_counterexample :
    ("bogus" ∉ allowedFields)
    ∧ searchProducts idOracle [] none "" (some "bogus") none true 1 20
        = .ok ⟨[], 0, []⟩
    ∧ ("" ∉ allowedFields)
    ∧ searchProducts idOracle [c4Product] none "x" (some "") none true 1 20
        = .ok ⟨[], 0, []⟩
    ∧ autocompleteProducts idOracle [] "a" "bogus" 8
        = .error (autocompleteFieldError "bogus")
    ∧ strContainsSub (searchFieldError "bogus") "product_id" = true
    ∧ strContainsSub (autocompleteFieldError "bogus") "product_id" = false :=
  ⟨by decide, rfl, by decide, rfl, rfl, by decide, by decide⟩

/-- C8 (amended): `search_products` raises the validation error (whose
message names the allowed field set) exactly when the keyword is non-empty
and a non-empty field restriction outside {product_id, name, category} is
supplied; `autocomplete_products` raises its validation error (which names
only the offending field) exactly when the prefix is non-empty and the
field is outside the allowed set; an empty keyword or prefix yields an
empty result set without error, regardless of the field. -/
theorem claim_C8_amended_field_validation :
    ∀ (ora : NormOracle) (ps : List Product) (tm : Option (List Transaction))
      (kw : String) (field cat : Option String) (fz : Bool) (page per : ℤ)
      (pre fieldA : String) (lim : ℕ),
      ((∃ e, searchProducts ora ps tm kw field cat fz page per = .error e)
          ↔ (kw ≠ "" ∧ ∃ f, field = some f ∧ f ≠ "" ∧ f ∉ allowedFields))
      ∧ (∀ f, field = some f → kw ≠ "" → f ≠ "" → f ∉ allowedFields →
          searchProducts ora ps tm kw field cat fz page per
            = .error (searchFieldError f))
      ∧ (kw = "" → searchProducts ora ps tm kw field cat fz page per
          = .ok { results := [], total := 0, facets := [] })
      ∧ ((∃ e, autocompleteProducts ora ps pre fieldA lim = .error e)
          ↔ (pre ≠ "" ∧ fieldA ∉ allowedFields))
      ∧ (pre ≠ "" → fieldA ∉ allowedFields →
          autocompleteProducts ora ps pre fieldA lim
            = .error (autocompleteFieldError fieldA))
      ∧ (pre = "" → autocompleteProducts ora ps pre fieldA lim = .ok []) := by
  intro ora ps tm kw field cat fz page per pre fieldA lim
  refine ⟨?_, ?_, ?_, ?_, ?_, ?_⟩
  · constructor
    · rintro ⟨e, he⟩
      rw [searchProducts] at he
      by_cases hkw : kw = ""
      · rw [if_pos hkw] at he
        exact absurd he (by simp)
      · rw [if_neg hkw] at he
        dsimp only at he
        cases hfield : field with
        | none =>
            rw [hfield] at he
            dsimp only at he
            exact absurd he (by simp)
        | some f =>
            rw [hfield] at he
            dsimp only at he
            by_cases hbad : (decide (f ≠ "") && decide (f ∉ allowedFields)) = true
            · simp only [Bool.and_eq_true, decide_eq_true_eq] at hbad
              exact ⟨hkw, f, rfl, hbad.1, hbad.2⟩
            · rw [if_neg hbad] at he
              exact absurd he (by simp)
    · rintro ⟨hkw, f, hf, hne, hnotin⟩
      subst hf
      rw [searchProducts, if_neg hkw]
      dsimp only
      rw [if_pos (by simp [hne, hnotin])]
      exact ⟨searchFieldError f, rfl⟩
  · intro f hf hkw hne hnotin
    subst hf
    rw [searchProducts, if_neg hkw]
    dsimp only
    rw [if_pos (by simp [hne, hnotin])]
  · intro hkw
    rw [searchProducts, if_pos hkw]
  · constructor
    · rintro ⟨e, he⟩
      rw [autocompleteProducts] at he
      by_cases hpre : pre = ""
      · rw [if_pos hpre] at he
        exact absurd he (by simp)
      · rw [if_neg hpre] at he
        by_cases hfa : fieldA ∉ allowedFields
        · exact ⟨hpre, hfa⟩
        · rw [if_neg hfa] at he
          exact absurd he (by simp)
    · rintro ⟨hpre, hfa⟩
      rw [autocompleteProducts, if_neg hpre, if_pos hfa]
      exact ⟨autocompleteFieldError fieldA, rfl⟩
  · intro hpre hfa
    rw [autocompleteProducts, if_neg hpre, if_pos hfa]
  · intro hpre
    rw [autocompleteProducts, if_pos hpre]

/-- C8 amended witness: a non-empty keyword/prefix with the invalid field
"bogus" produces exactly the two validation errors. -/
theorem claim_C8_amended_field_validation_witness :
    (("x" : String) ≠ "" ∧ ("bogus" : String) ≠ "" ∧ "bogus" ∉ allowedFields
      ∧ ("a" : String) ≠ "")
    ∧ searchProducts idOracle [] none "x" (some "bogus") none true 1 20
        = .error (searchFieldError "bogus")
    ∧ autocompleteProducts idOracle [] "a" "bogus" 8
        = .error (autocompleteFieldError "bogus") :=
  ⟨⟨by decide, by decide, by decide, by decide⟩,
    (claim_C8_amended_field_validation idOracle [] none "x" (some "bogus") none true 1 20
        "a" "bogus" 8).2.1 "bogus" rfl (by decide) (by decide) (by decide),
    (claim_C8_amended_field_validation idOracle [] none "x" (some "bogus") none true 1 20
        "a" "bogus" 8).2.2.2.2.1 (by decide) (by decide)⟩

/-- C10 witness: on the concrete scenario the two least-purchased lists
coincide and the recorded P1 quantity is positive. -/
theorem claim_C10_least_purchased_flag_witness :
    ((computeFinancialSummary scenProducts scenTxs 5 true none none).least_purchased
        = (computeFinancialSummary scenProducts scenTxs 5 false none none).least_purchased)
    ∧ (("P1", (10 : ℤ))
          ∈ (computeFinancialSummary scenProducts scenTxs 5 true none none).product_sales
        ∧ 0 < (("P1", (10 : ℤ)) : String × ℤ).2) :=
  ⟨(claim_C10_least_purchased_flag scenProducts scenTxs 5 none none).1,
    by decide,
    (claim_C10_least_purchased_flag scenProducts scenTxs 5 none none).2
      ("P1", (10 : ℤ)) (by decide)⟩

end MiniMart
